import Mathlib

/-!
# Inventory Coordination Engine — verification of the savannah-commerce core

Shallow embedding of the inventory core of the repository:

* `apps/products/models.py` — `Product` (stock counters and the model-level
  operations `can_reserve`, `reserve_stock`, `release_reservation`,
  `allocate_stock`, `deallocate_stock`), `StockReservation`
  (`extend_expiration`, `release`) and `StockMovement`;
* `apps/orders/services.py` — `InventoryService` (`reserve_stock_for_order`,
  `confirm_order_reservations`, `cancel_order_reservations`, `fulfill_order`,
  `cleanup_expired_reservations`, `adjust_stock`, `_log_stock_movement`,
  `extend_reservation`);
* `apps/orders/models.py` — `Order` (`reserve_stock`, `cancel_order`) and
  `OrderItem`.

Modelling decisions, each taken from the source:

* The database is a single state value `DB`.  Product rows and order rows are
  total maps from ids (every id the claims touch has a row); reservations and
  movements are lists in creation order, which is commit order in the
  sequential model.
* Counters (`stock_quantity`, `reserved_quantity`, `allocated_quantity`) are
  `Int`.  The Django fields are `PositiveIntegerField`, which the configured
  backends (PostgreSQL in `config/settings/base.py`, SQLite in development)
  enforce with a database `CHECK (column >= 0)` constraint; an UPDATE that
  would store a negative value raises `IntegrityError`.  A write of a counter
  is therefore modelled as fallible: `trySetCounters` returns `none` when a
  written value is negative, and the enclosing `transaction.atomic()` block
  rolls back, which the embedding renders by returning the state the
  transaction started from.
* Quantities of reservations and order items are `Nat`
  (`PositiveIntegerField` columns, hence non-negative); demand quantities in
  `reserve_stock_for_order` come from `OrderItem.quantity` at every call site
  and are likewise `Nat`.
* `timezone.now()` is the injected clock `DB.now` (an `Int`, in minutes);
  durations such as `expiration_minutes` are `Int` offsets.  No operation
  advances the clock.
* Free-text `reason` fields are elided: no claim refers to their contents.
* Redis leases always succeed in the sequential model; the `finally` block
  releasing them has no observable effect on the database state.
* Python's `sorted` (stable) is embedded as a stable insertion sort
  `sortByPid` (structural recursion so that concrete runs evaluate).
-/

/-- Movement types, from `StockMovement.MOVEMENT_TYPES` in
`apps/products/models.py`. -/
inductive MovementType where
  | inM
  | outM
  | reserveM
  | releaseM
  | allocateM
  | deallocateM
  | adjustmentM
deriving DecidableEq, Repr

/-- A product row: the inventory counters and configuration of `Product` in
`apps/products/models.py` (catalog fields that no operation reads are
elided). -/
structure Product where
  stock_quantity : Int
  reserved_quantity : Int
  allocated_quantity : Int
  track_inventory : Bool
deriving DecidableEq, Repr

/-- A `StockReservation` row (`apps/products/models.py`).  `rid` is the
primary key; `order_id` is the optional order reference. -/
structure Reservation where
  rid : Nat
  product_id : Nat
  quantity : Nat
  expires_at : Option Int
  is_active : Bool
  order_id : Option Nat
deriving DecidableEq, Repr

/-- A `StockMovement` row (`apps/products/models.py`): the signed delta and
the counter snapshot taken after the mutation. -/
structure StockMovement where
  product_id : Nat
  movement_type : MovementType
  quantity : Int
  reference_id : Option Nat
  stock_after : Int
  reserved_after : Int
  allocated_after : Int
deriving DecidableEq, Repr

/-- Order statuses, from `Order.STATUS_CHOICES` in `apps/orders/models.py`. -/
inductive OrderStatus where
  | draft
  | reserved
  | pending
  | confirmed
  | processing
  | shipped
  | delivered
  | cancelled
  | failed
deriving DecidableEq, Repr

/-- An `OrderItem` row (`apps/orders/models.py`); `unique_together =
["order", "product"]` means the items of one order have distinct
product ids. -/
structure OrderItem where
  product_id : Nat
  quantity : Nat
deriving DecidableEq, Repr

/-- An `Order` row (`apps/orders/models.py`), with its items inlined. -/
structure Order where
  status : OrderStatus
  items : List OrderItem
  is_reservation_active : Bool
  reservation_expires_at : Option Int
deriving DecidableEq, Repr

/-- The database state: product and order rows as total maps over ids,
reservation and movement rows as lists in creation (= commit) order,
the reservation primary-key counter, and the injected clock. -/
structure DB where
  products : Nat → Product
  orders : Nat → Order
  reservations : List Reservation
  movements : List StockMovement
  next_rid : Nat
  now : Int

/-- Replace the product row `pid`. -/
def putProduct (db : DB) (pid : Nat) (p : Product) : DB :=
  { db with products := fun i => if i = pid then p else db.products i }

/-- One fallible counter write: `Product.save(update_fields=...)` under the
`PositiveIntegerField` check constraints.  Returns `none` (IntegrityError,
aborting the enclosing transaction) when a written counter is negative. -/
def trySetCounters (db : DB) (pid : Nat) (s r a : Int) : Option DB :=
  if 0 ≤ s ∧ 0 ≤ r ∧ 0 ≤ a then
    some (putProduct db pid { db.products pid with
      stock_quantity := s, reserved_quantity := r, allocated_quantity := a })
  else
    none

/-- Append a `StockReservation` row; returns its generated primary key. -/
def addReservation (db : DB) (pid : Nat) (q : Nat) (expires : Option Int)
    (orderId : Option Nat) : DB × Nat :=
  ({ db with
      reservations := db.reservations ++
        [{ rid := db.next_rid, product_id := pid, quantity := q,
           expires_at := expires, is_active := true, order_id := orderId }],
      next_rid := db.next_rid + 1 },
   db.next_rid)

/-- Update one reservation row in place (by primary key). -/
def updateReservation (db : DB) (rid : Nat) (f : Reservation → Reservation) :
    DB :=
  { db with
      reservations := db.reservations.map fun r =>
        if r.rid = rid then f r else r }

namespace Product

/-- `Product.available_quantity`: `max(0, stock - reserved - allocated)`. -/
def available_quantity (p : Product) : Int :=
  max 0 (p.stock_quantity - p.reserved_quantity - p.allocated_quantity)

/-- `Product.can_reserve`. -/
def can_reserve (p : Product) (quantity : Nat) : Bool :=
  if !p.track_inventory then true
  else decide ((quantity : Int) ≤ p.available_quantity)

/-- `Product.reserve_stock`: re-checks availability under the row lock,
increments `reserved_quantity` and creates the model-level reservation row
(no order reference, no expiry).  Returns the Python boolean; `none` is an
IntegrityError from the counter write. -/
def reserve_stock (db : DB) (pid : Nat) (quantity : Nat) :
    Option (Bool × DB) :=
  let p := db.products pid
  if !p.track_inventory then some (true, db)
  else if (quantity : Int) ≤ p.available_quantity then
    match trySetCounters db pid p.stock_quantity
        (p.reserved_quantity + quantity) p.allocated_quantity with
    | some db1 => some (true, (addReservation db1 pid quantity none none).1)
    | none => none
  else
    some (false, db)

/-- `Product.release_reservation`: unconditionally decrements
`reserved_quantity`; the only failure mode is the database constraint. -/
def release_reservation (db : DB) (pid : Nat) (quantity : Nat) : Option DB :=
  let p := db.products pid
  if !p.track_inventory then some db
  else
    trySetCounters db pid p.stock_quantity
      (p.reserved_quantity - quantity) p.allocated_quantity

/-- `Product.allocate_stock`: moves `quantity` from reserved to allocated
when `reserved_quantity >= quantity`, else returns `False`. -/
def allocate_stock (db : DB) (pid : Nat) (quantity : Nat) :
    Option (Bool × DB) :=
  let p := db.products pid
  if !p.track_inventory then some (true, db)
  else if (quantity : Int) ≤ p.reserved_quantity then
    match trySetCounters db pid p.stock_quantity
        (p.reserved_quantity - quantity) (p.allocated_quantity + quantity) with
    | some db1 => some (true, db1)
    | none => none
  else
    some (false, db)

/-- `Product.deallocate_stock`: unconditionally decrements
`allocated_quantity` and returns `True`; the only failure mode is the
database constraint (`none`). -/
def deallocate_stock (db : DB) (pid : Nat) (quantity : Nat) :
    Option (Bool × DB) :=
  let p := db.products pid
  if !p.track_inventory then some (true, db)
  else
    match trySetCounters db pid p.stock_quantity p.reserved_quantity
        (p.allocated_quantity - quantity) with
    | some db1 => some (true, db1)
    | none => none

end Product

namespace StockReservation

/-- `StockReservation.extend_expiration`: sets `expires_at` to
`timezone.now() + timedelta(minutes=minutes)` — from the clock, not from the
previous expiry. -/
def extend_expiration (db : DB) (rid : Nat) (minutes : Int) : DB :=
  updateReservation db rid fun r => { r with expires_at := some (db.now + minutes) }

/-- `StockReservation.release`: when the row is active, decrement the owning
product's `reserved_quantity` and flip `is_active` to false.  No movement is
logged here.  `none` is the propagated IntegrityError of the counter
write. -/
def release (db : DB) (rid : Nat) : Option DB :=
  match db.reservations.find? (fun r => r.rid = rid) with
  | none => some db
  | some r =>
    if r.is_active then
      match Product.release_reservation db r.product_id r.quantity with
      | some db1 => some (updateReservation db1 rid fun s => { s with is_active := false })
      | none => none
    else
      some db

end StockReservation

/-- Stable insertion of `(pid, qty)` keeping earlier equal keys first. -/
def insertByPid (x : Nat × Nat) : List (Nat × Nat) → List (Nat × Nat)
  | [] => [x]
  | y :: ys => if y.1 ≤ x.1 then y :: insertByPid x ys else x :: y :: ys

/-- Python's stable `sorted(order_items, key=lambda x: x["product_id"])`,
embedded as a structurally recursive stable insertion sort. -/
def sortByPid (l : List (Nat × Nat)) : List (Nat × Nat) :=
  l.foldl (fun acc x => insertByPid x acc) []

/-- The exceptions of `apps/orders/services.py` that
`reserve_stock_for_order` can surface: `InsufficientStockError` from the
availability check (with the message's available/requested data), and the
re-raise paths after the check loop passed (`reserveFailed`). -/
inductive InventoryError where
  | insufficientStock (productId : Nat) (available : Int) (requested : Nat)
  | reserveFailed (productId : Nat)
deriving DecidableEq, Repr

namespace InventoryService

/-- `InventoryService._log_stock_movement`: refreshes the product row and
appends one movement carrying the post-mutation counter snapshot. -/
def log_stock_movement (db : DB) (pid : Nat) (t : MovementType) (q : Int)
    (ref : Option Nat) : DB :=
  let p := db.products pid
  { db with
      movements := db.movements ++
        [{ product_id := pid, movement_type := t, quantity := q,
           reference_id := ref, stock_after := p.stock_quantity,
           reserved_after := p.reserved_quantity,
           allocated_after := p.allocated_quantity }] }

/-- Outcome of the reservation-creation loop of `reserve_stock_for_order`:
either all demands were reserved (with the created reservation ids), or an
exception aborted the transaction.  `created` collects the service-created
reservations, newest first, for the exception handler's cleanup loop. -/
inductive ReserveLoopResult where
  | ok (rids : List Nat) (db : DB)
  | fail (productId : Nat) (created : List (Nat × Nat))

/-- The creation loop of `reserve_stock_for_order` (all checks already
passed): per demand, `Product.reserve_stock`, then the service's own
`StockReservation` row with the order id and expiry, then one RESERVE
movement. -/
def reserveLoop (orderId : Nat) (expirationTime : Int) :
    List (Nat × Nat) → DB → List Nat → List (Nat × Nat) → ReserveLoopResult
  | [], db, rids, _created => .ok rids.reverse db
  | it :: rest, db, rids, created =>
    match Product.reserve_stock db it.1 it.2 with
    | some (true, db1) =>
      let (db2, rid) := addReservation db1 it.1 it.2 (some expirationTime)
        (some orderId)
      let db3 := log_stock_movement db2 it.1 .reserveM (it.2 : Int)
        (some orderId)
      reserveLoop orderId expirationTime rest db3 (rid :: rids)
        ((it.1, it.2) :: created)
    | some (false, _) => .fail it.1 created
    | none => .fail it.1 created

/-- The exception handler of `reserve_stock_for_order`: after the
transaction rolled back, `reservation.release()` is attempted for each
service-created reservation in creation order; each attempt's own
IntegrityError is swallowed (and the in-memory row no longer exists, so the
`is_active` save touches nothing). -/
def cleanupReservations (db : DB) (created : List (Nat × Nat)) : DB :=
  created.foldl (fun d pq => (Product.release_reservation d pq.1 pq.2).getD d) db

/-- `InventoryService.reserve_stock_for_order`: sort demands by product id,
(leases always succeed in the sequential model,) check `can_reserve` for
every demand inside one transaction, then create reservations and RESERVE
movements; any exception rolls the transaction back and runs the cleanup
loop. -/
def reserve_stock_for_order (db : DB) (order_items : List (Nat × Nat))
    (orderId : Nat) (expiration_minutes : Int) :
    Except InventoryError (List Nat) × DB :=
  let sorted_items := sortByPid order_items
  match sorted_items.find?
      (fun it => !(Product.can_reserve (db.products it.1) it.2)) with
  | some it =>
    (.error (.insufficientStock it.1 (db.products it.1).available_quantity
        it.2), db)
  | none =>
    let expiration_time := db.now + expiration_minutes
    match reserveLoop orderId expiration_time sorted_items db [] [] with
    | .ok rids db1 => (.ok rids, db1)
    | .fail pid created =>
      (.error (.reserveFailed pid), cleanupReservations db created.reverse)

/-- Active reservations of an order
(`StockReservation.objects.filter(order_id=..., is_active=True)`). -/
def activeOrderReservations (db : DB) (orderId : Nat) : List Reservation :=
  db.reservations.filter fun r =>
    decide (r.order_id = some orderId) && r.is_active

/-- The loop body of `confirm_order_reservations`: allocate, deactivate the
reservation, log an ALLOCATE movement; `none` aborts the transaction. -/
def confirmLoop (orderId : Nat) : List Reservation → DB → Option DB
  | [], db => some db
  | r :: rest, db =>
    match Product.allocate_stock db r.product_id r.quantity with
    | some (true, db1) =>
      let db2 := updateReservation db1 r.rid fun s => { s with is_active := false }
      confirmLoop orderId rest
        (log_stock_movement db2 r.product_id .allocateM (r.quantity : Int)
          (some orderId))
    | some (false, _) => none
    | none => none

/-- `InventoryService.confirm_order_reservations`: all-or-nothing over the
order's active reservations; exceptions are caught and turned into
`False`. -/
def confirm_order_reservations (db : DB) (orderId : Nat) : Bool × DB :=
  match confirmLoop orderId (activeOrderReservations db orderId) db with
  | some db1 => (true, db1)
  | none => (false, db)

/-- The loop body of `cancel_order_reservations`: `reservation.release()`
then one RELEASE movement; `none` aborts the transaction. -/
def cancelLoop (orderId : Nat) : List Reservation → DB → Option DB
  | [], db => some db
  | r :: rest, db =>
    match StockReservation.release db r.rid with
    | some db1 =>
      cancelLoop orderId rest
        (log_stock_movement db1 r.product_id .releaseM (r.quantity : Int)
          (some orderId))
    | none => none

/-- `InventoryService.cancel_order_reservations`: release every active
reservation of the order and log a RELEASE movement for each; exceptions are
caught and turned into `False` after the transaction rolled back. -/
def cancel_order_reservations (db : DB) (orderId : Nat) : Bool × DB :=
  match cancelLoop orderId (activeOrderReservations db orderId) db with
  | some db1 => (true, db1)
  | none => (false, db)

/-- The loop body of `fulfill_order`: `deallocate_stock`, then the
unconditional `stock_quantity -= quantity` write, then one OUT movement with
negative delta; `none` aborts the transaction. -/
def fulfillLoop (orderId : Nat) : List OrderItem → DB → Option DB
  | [], db => some db
  | it :: rest, db =>
    match Product.deallocate_stock db it.product_id it.quantity with
    | some (true, db1) =>
      let p := db1.products it.product_id
      match trySetCounters db1 it.product_id
          (p.stock_quantity - it.quantity) p.reserved_quantity
          p.allocated_quantity with
      | some db2 =>
        fulfillLoop orderId rest
          (log_stock_movement db2 it.product_id .outM (-(it.quantity : Int))
            (some orderId))
      | none => none
    | some (false, _) => none
    | none => none

/-- `InventoryService.fulfill_order`: per order line, deallocate and ship
out; all-or-nothing, exceptions turned into `False`. -/
def fulfill_order (db : DB) (orderId : Nat) : Bool × DB :=
  match fulfillLoop orderId (db.orders orderId).items db with
  | some db1 => (true, db1)
  | none => (false, db)

/-- The expired-reservation query of `cleanup_expired_reservations`
(`expires_at__lt=timezone.now(), is_active=True`), evaluated once before the
sweep loop. -/
def expiredReservations (db : DB) : List Reservation :=
  db.reservations.filter fun r =>
    r.is_active &&
      match r.expires_at with
      | some t => decide (t < db.now)
      | none => false

/-- The sweep loop of `cleanup_expired_reservations`: each reservation is
released in its own transaction and logged; a per-item failure rolls back
only that item and the loop continues. -/
def sweepLoop : List Reservation → Nat × DB → Nat × DB
  | [], acc => acc
  | r :: rest, (count, db) =>
    match StockReservation.release db r.rid with
    | some db1 =>
      sweepLoop rest
        (count + 1,
         log_stock_movement db1 r.product_id .releaseM (r.quantity : Int)
           r.order_id)
    | none => sweepLoop rest (count, db)

/-- `InventoryService.cleanup_expired_reservations`: releases every
reservation past its expiry and returns how many were released. -/
def cleanup_expired_reservations (db : DB) : Nat × DB :=
  sweepLoop (expiredReservations db) (0, db)

/-- `InventoryService.adjust_stock`: set `stock_quantity` to the given
value, log one ADJUSTMENT movement with delta `new - old`; exceptions turned
into `False`. -/
def adjust_stock (db : DB) (productId : Nat) (new_quantity : Int) :
    Bool × DB :=
  let p := db.products productId
  let difference := new_quantity - p.stock_quantity
  match trySetCounters db productId new_quantity p.reserved_quantity
      p.allocated_quantity with
  | some db1 =>
    (true, log_stock_movement db1 productId .adjustmentM difference none)
  | none => (false, db)

/-- `InventoryService.extend_reservation`: set every active reservation of
the order to expire `additional_minutes` from now; no reachable failure. -/
def extend_reservation (db : DB) (orderId : Nat)
    (additional_minutes : Int) : Bool × DB :=
  (true,
   (activeOrderReservations db orderId).foldl
     (fun d r => StockReservation.extend_expiration d r.rid additional_minutes)
     db)

end InventoryService

/-- Replace the order row `oid`. -/
def putOrder (db : DB) (oid : Nat) (o : Order) : DB :=
  { db with orders := fun i => if i = oid then o else db.orders i }

namespace Order

/-- `Order.can_be_cancelled`. -/
def can_be_cancelled (o : Order) : Bool :=
  decide (o.status = OrderStatus.draft ∨ o.status = OrderStatus.reserved ∨
    o.status = OrderStatus.pending ∨ o.status = OrderStatus.confirmed)

/-- `Order.can_be_confirmed`. -/
def can_be_confirmed (o : Order) : Bool :=
  decide (o.status = OrderStatus.reserved ∨ o.status = OrderStatus.pending)

/-- `Order.reserve_stock`: the wrapper translating a draft order's items
into engine demands; only a non-empty reservation list (`if reservations:`)
moves the order to `reserved`, and an engine exception moves it to
`failed`. -/
def reserve_stock (db : DB) (oid : Nat) (expiration_minutes : Int) :
    Bool × DB :=
  let o := db.orders oid
  if o.status ≠ OrderStatus.draft then (false, db)
  else
    let order_items := o.items.map fun it => (it.product_id, it.quantity)
    match InventoryService.reserve_stock_for_order db order_items oid
        expiration_minutes with
    | (.ok rids, db1) =>
      if rids ≠ [] then
        (true,
         putOrder db1 oid
           { db1.orders oid with
               status := OrderStatus.reserved,
               is_reservation_active := true,
               reservation_expires_at := some (db1.now + expiration_minutes) })
      else (false, db1)
    | (.error _, db1) =>
      (false, putOrder db1 oid { db1.orders oid with status := OrderStatus.failed })

/-- `Order.cancel_order`: for a cancellable order, release reservations when
`is_reservation_active` (ignoring the returned boolean) and mark the order
cancelled. -/
def cancel_order (db : DB) (oid : Nat) : Bool × DB :=
  let o := db.orders oid
  if !can_be_cancelled o then (false, db)
  else
    let db1 :=
      if o.is_reservation_active then
        (InventoryService.cancel_order_reservations db oid).2
      else db
    (true,
     putOrder db1 oid
       { db1.orders oid with
           status := OrderStatus.cancelled, is_reservation_active := false })

end Order

/-! ## Specification-side definitions and well-formedness predicates -/

/-- A triple of replayed counters. -/
structure Counters where
  stock : Int
  reserved : Int
  allocated : Int
deriving DecidableEq, Repr

/-- The counters of a product row. -/
def countersOf (p : Product) : Counters :=
  { stock := p.stock_quantity, reserved := p.reserved_quantity,
    allocated := p.allocated_quantity }

/-- Spec-side replay semantics, following the spec's words (§8 "Ledger
replay equivalence" together with §4.4's description of which counter each
movement type mutates): IN/OUT/ADJUSTMENT carry a signed stock delta,
RESERVE adds to reserved, RELEASE subtracts from reserved, ALLOCATE moves
its quantity from reserved to allocated, DEALLOCATE subtracts from
allocated. -/
def specReplayStep (c : Counters) (m : StockMovement) : Counters :=
  match m.movement_type with
  | .inM => { c with stock := c.stock + m.quantity }
  | .outM => { c with stock := c.stock + m.quantity }
  | .adjustmentM => { c with stock := c.stock + m.quantity }
  | .reserveM => { c with reserved := c.reserved + m.quantity }
  | .releaseM => { c with reserved := c.reserved - m.quantity }
  | .allocateM =>
    { c with reserved := c.reserved - m.quantity,
             allocated := c.allocated + m.quantity }
  | .deallocateM => { c with allocated := c.allocated - m.quantity }

/-- Spec-side replay of a movement list from zero. -/
def specReplay (ms : List StockMovement) : Counters :=
  ms.foldl specReplayStep { stock := 0, reserved := 0, allocated := 0 }

/-- The movements of one product, in commit order. -/
def movementsFor (db : DB) (pid : Nat) : List StockMovement :=
  db.movements.filter fun m => decide (m.product_id = pid)

/-- Ledger-replay consistency for one product: replaying its movements from
zero reproduces its current counters (§8). -/
def ReplayOK (db : DB) (pid : Nat) : Prop :=
  specReplay (movementsFor db pid) = countersOf (db.products pid)

/-- The stock and reserved components of ledger replay are consistent (the
part of `ReplayOK` that fulfillment does not break). -/
def ReplayOK2 (db : DB) (pid : Nat) : Prop :=
  (specReplay (movementsFor db pid)).stock = (db.products pid).stock_quantity ∧
  (specReplay (movementsFor db pid)).reserved = (db.products pid).reserved_quantity

/-- The §3 product invariant: a tracked product never promises more than its
physical stock. -/
def prodInv (p : Product) : Prop :=
  p.track_inventory = true →
    p.reserved_quantity + p.allocated_quantity ≤ p.stock_quantity

instance (db : DB) (pid : Nat) : Decidable (ReplayOK db pid) :=
  inferInstanceAs (Decidable (_ = _))

instance (db : DB) (pid : Nat) : Decidable (ReplayOK2 db pid) :=
  inferInstanceAs (Decidable (_ ∧ _))

instance (p : Product) : Decidable (prodInv p) :=
  inferInstanceAs (Decidable (_ → _))

/-- The invariant for every product row of the database. -/
def InvAll (db : DB) : Prop := ∀ pid, prodInv (db.products pid)

/-- Stored counters are non-negative — what the `PositiveIntegerField`
check constraints guarantee for every committed row. -/
def CountersWF (db : DB) : Prop :=
  ∀ pid, 0 ≤ (db.products pid).stock_quantity ∧
    0 ≤ (db.products pid).reserved_quantity ∧
    0 ≤ (db.products pid).allocated_quantity

/-- Reservation primary keys are distinct — what the database primary key
guarantees. -/
def RidsOK (db : DB) : Prop := (db.reservations.map Reservation.rid).Nodup

instance (db : DB) : Decidable (RidsOK db) :=
  inferInstanceAs (Decidable (List.Nodup _))

/-- Sum of the quantities of a product's active reservations. -/
def activeReservationSum (db : DB) (pid : Nat) : Nat :=
  ((db.reservations.filter fun r =>
      decide (r.product_id = pid) && r.is_active).map Reservation.quantity).sum

/-- Total quantity demanded for one product by a demand list. -/
def demandSum (items : List (Nat × Nat)) (pid : Nat) : Nat :=
  ((items.filter fun it => decide (it.1 = pid)).map Prod.snd).sum

/-- A `Product` row as Django creates it: counters default to zero. -/
def defaultProduct (track : Bool) : Product :=
  { stock_quantity := 0, reserved_quantity := 0, allocated_quantity := 0,
    track_inventory := track }

/-! ## Concrete fixtures used by witnesses and counterexamples -/

/-- A tracked product row with the given counters. -/
def trackedProduct (s r a : Int) : Product :=
  { stock_quantity := s, reserved_quantity := r, allocated_quantity := a,
    track_inventory := true }

/-- A draft order with no items. -/
def draftOrder : Order :=
  { status := .draft, items := [], is_reservation_active := false,
    reservation_expires_at := none }

/-- A database whose every product row is tracked with stock 10 and no
holds, with no reservations and no movements. -/
def baseDB : DB :=
  { products := fun _ => trackedProduct 10 0 0,
    orders := fun _ => draftOrder,
    reservations := [], movements := [], next_rid := 0, now := 0 }

/-- C1 counterexample fixture: stock 10 of which 5 reserved. -/
def dbAdj : DB := { baseDB with products := fun _ => trackedProduct 10 5 0 }

/-- C2 counterexample fixture: empty shelves, order 7 wants 3 of product 1. -/
def dbLedger0 : DB :=
  { baseDB with
      products := fun _ => trackedProduct 0 0 0,
      orders := fun _ =>
        { draftOrder with items := [{ product_id := 1, quantity := 3 }] } }

/-- C2 counterexample history: receive 5 by adjustment, reserve 3 for order
7, confirm, fulfill. -/
def dbLedger1 : DB := (InventoryService.adjust_stock dbLedger0 1 5).2

def dbLedger2 : DB :=
  (InventoryService.reserve_stock_for_order dbLedger1 [(1, 3)] 7 30).2

def dbLedger3 : DB := (InventoryService.confirm_order_reservations dbLedger2 7).2

def dbLedger4 : DB := (InventoryService.fulfill_order dbLedger3 7).2

/-- C5/C6/C8 style fixture: one active reservation of 3 units of product 1
for order 4, counted in the product's reserved counter. -/
def dbHold : DB :=
  { baseDB with
      products := fun _ => trackedProduct 10 3 0,
      reservations := [{ rid := 0, product_id := 1, quantity := 3,
                         expires_at := some 100, is_active := true,
                         order_id := some 4 }],
      next_rid := 1 }

/-- C5 counterfactual fixture: product 1 has 5 allocated, product 2 only 2,
and order 7 wants 3 of each. -/
def dbFulfill : DB :=
  { baseDB with
      products := fun pid =>
        if pid = 1 then trackedProduct 10 0 5 else trackedProduct 10 0 2,
      orders := fun _ =>
        { draftOrder with
            items := [{ product_id := 1, quantity := 3 },
                      { product_id := 2, quantity := 3 }] } }

/-- C9 fixture: every product untracked. -/
def dbVirtual : DB :=
  { baseDB with
      products := fun _ =>
        { trackedProduct 10 0 0 with track_inventory := false } }

/-- C10 fixture: a reserved order 7 whose active reservation (3 units) is
inconsistent with the product counter (`reserved_quantity = 1`), so that
releasing it hits the database constraint and
`cancel_order_reservations` returns `False`. -/
def dbCorrupt : DB :=
  { baseDB with
      products := fun _ => trackedProduct 10 1 0,
      orders := fun _ =>
        { draftOrder with status := .reserved, is_reservation_active := true },
      reservations := [{ rid := 0, product_id := 1, quantity := 3,
                         expires_at := some 100, is_active := true,
                         order_id := some 7 }],
      next_rid := 1 }

/-! ## Projection and frame lemmas for the database primitives -/

@[simp]
theorem putProduct_products (db : DB) (pid : Nat) (p : Product) (i : Nat) :
    (putProduct db pid p).products i = if i = pid then p else db.products i := rfl

@[simp]
theorem putProduct_orders (db : DB) (pid : Nat) (p : Product) :
    (putProduct db pid p).orders = db.orders := rfl

@[simp]
theorem putProduct_reservations (db : DB) (pid : Nat) (p : Product) :
    (putProduct db pid p).reservations = db.reservations := rfl

@[simp]
theorem putProduct_movements (db : DB) (pid : Nat) (p : Product) :
    (putProduct db pid p).movements = db.movements := rfl

@[simp]
theorem putProduct_next_rid (db : DB) (pid : Nat) (p : Product) :
    (putProduct db pid p).next_rid = db.next_rid := rfl

@[simp]
theorem putProduct_now (db : DB) (pid : Nat) (p : Product) :
    (putProduct db pid p).now = db.now := rfl

@[simp]
theorem addReservation_products (db : DB) (pid : Nat) (q : Nat)
    (e : Option Int) (o : Option Nat) :
    (addReservation db pid q e o).1.products = db.products := rfl

@[simp]
theorem addReservation_movements (db : DB) (pid : Nat) (q : Nat)
    (e : Option Int) (o : Option Nat) :
    (addReservation db pid q e o).1.movements = db.movements := rfl

@[simp]
theorem addReservation_now (db : DB) (pid : Nat) (q : Nat)
    (e : Option Int) (o : Option Nat) :
    (addReservation db pid q e o).1.now = db.now := rfl

@[simp]
theorem addReservation_reservations (db : DB) (pid : Nat) (q : Nat)
    (e : Option Int) (o : Option Nat) :
    (addReservation db pid q e o).1.reservations =
      db.reservations ++
        [{ rid := db.next_rid, product_id := pid, quantity := q,
           expires_at := e, is_active := true, order_id := o }] := rfl

@[simp]
theorem updateReservation_products (db : DB) (rid : Nat)
    (f : Reservation → Reservation) :
    (updateReservation db rid f).products = db.products := rfl

@[simp]
theorem updateReservation_movements (db : DB) (rid : Nat)
    (f : Reservation → Reservation) :
    (updateReservation db rid f).movements = db.movements := rfl

@[simp]
theorem updateReservation_now (db : DB) (rid : Nat)
    (f : Reservation → Reservation) :
    (updateReservation db rid f).now = db.now := rfl

@[simp]
theorem updateReservation_reservations (db : DB) (rid : Nat)
    (f : Reservation → Reservation) :
    (updateReservation db rid f).reservations =
      db.reservations.map fun r => if r.rid = rid then f r else r := rfl

@[simp]
theorem log_stock_movement_products (db : DB) (pid : Nat) (t : MovementType)
    (q : Int) (ref : Option Nat) :
    (InventoryService.log_stock_movement db pid t q ref).products =
      db.products := rfl

@[simp]
theorem log_stock_movement_reservations (db : DB) (pid : Nat)
    (t : MovementType) (q : Int) (ref : Option Nat) :
    (InventoryService.log_stock_movement db pid t q ref).reservations =
      db.reservations := rfl

@[simp]
theorem log_stock_movement_now (db : DB) (pid : Nat)
    (t : MovementType) (q : Int) (ref : Option Nat) :
    (InventoryService.log_stock_movement db pid t q ref).now = db.now := rfl

@[simp]
theorem log_stock_movement_movements (db : DB) (pid : Nat) (t : MovementType)
    (q : Int) (ref : Option Nat) :
    (InventoryService.log_stock_movement db pid t q ref).movements =
      db.movements ++
        [{ product_id := pid, movement_type := t, quantity := q,
           reference_id := ref,
           stock_after := (db.products pid).stock_quantity,
           reserved_after := (db.products pid).reserved_quantity,
           allocated_after := (db.products pid).allocated_quantity }] := rfl

theorem trySetCounters_eq (db : DB) (pid : Nat) (s r a : Int) :
    trySetCounters db pid s r a =
      if 0 ≤ s ∧ 0 ≤ r ∧ 0 ≤ a then
        some (putProduct db pid { db.products pid with
          stock_quantity := s, reserved_quantity := r,
          allocated_quantity := a })
      else none := rfl

theorem trySetCounters_some (db : DB) (pid : Nat) (s r a : Int) (db' : DB)
    (h : trySetCounters db pid s r a = some db') :
    0 ≤ s ∧ 0 ≤ r ∧ 0 ≤ a ∧
      db' = putProduct db pid { db.products pid with
        stock_quantity := s, reserved_quantity := r,
        allocated_quantity := a } := by
  rw [trySetCounters_eq] at h
  split at h
  · rename_i hc
    exact ⟨hc.1, hc.2.1, hc.2.2, (Option.some.injEq _ _ ▸ h).symm⟩
  · exact absurd h (by simp)

/-! ## C1, C2, C4, C6, C7, C8, C9 — counterexamples at concrete inputs -/

/-- C1: the claim "the invariant `reserved + allocated <= stock` is
preserved by every Engine operation including `adjustStock`" is false:
on a tracked product with stock 10 and 5 reserved, `adjust_stock` to 2
succeeds and leaves `reserved + allocated = 5 > 2 = stock`. -/
theorem C1_counterexample :
    prodInv (dbAdj.products 1) ∧
    (InventoryService.adjust_stock dbAdj 1 2).1 = true ∧
    ((InventoryService.adjust_stock dbAdj 1 2).2.products 1).track_inventory
      = true ∧
    ¬ prodInv ((InventoryService.adjust_stock dbAdj 1 2).2.products 1) := by
  decide

/-- C2: the claim "replaying a product's movements from zero reproduces the
snapshot of every record" is false: after adjust(+5), reserve 3, confirm,
fulfill on product 1, the last movement's `allocated_after` is 0 but the
replayed allocated counter is 3 — fulfillment logged only the OUT movement
and left the allocated decrement unlogged. -/
theorem C2_counterexample :
    (InventoryService.adjust_stock dbLedger0 1 5).1 = true ∧
    (InventoryService.reserve_stock_for_order dbLedger1
        [(1, 3)] 7 30).1.toOption = some [1] ∧
    (InventoryService.confirm_order_reservations dbLedger2 7).1 = true ∧
    (InventoryService.fulfill_order dbLedger3 7).1 = true ∧
    (dbLedger4.movements.map fun m => m.allocated_after).getLast? = some 0 ∧
    (dbLedger4.products 1).allocated_quantity = 0 ∧
    (specReplay (movementsFor dbLedger4 1)).allocated = 3 ∧
    ¬ ReplayOK dbLedger4 1 := by
  decide

/-- C4: the claim "a successful reserveForOrder with n demands creates
exactly n active Reservations whose quantities sum to `reserved_quantity`"
is false: one demand of 3 units creates two active rows (the model-level row
from `Product.reserve_stock` plus the service's row), so the active sum is 6
while `reserved_quantity` is 3. -/
theorem C4_counterexample :
    (InventoryService.reserve_stock_for_order baseDB
        [(1, 3)] 9 30).1.toOption = some [1] ∧
    (InventoryService.reserve_stock_for_order baseDB [(1, 3)] 9
        30).2.reservations.length = 2 ∧
    (∀ r ∈ (InventoryService.reserve_stock_for_order baseDB [(1, 3)] 9
        30).2.reservations, r.product_id = 1 ∧ r.is_active = true ∧
        r.quantity = 3) ∧
    activeReservationSum
      (InventoryService.reserve_stock_for_order baseDB [(1, 3)] 9 30).2 1
      = 6 ∧
    ((InventoryService.reserve_stock_for_order baseDB [(1, 3)] 9
        30).2.products 1).reserved_quantity = 3 := by
  decide

/-- C6: the claim "`release()` logs exactly one RELEASE movement" is false:
releasing the active reservation of `dbHold` decrements the product's
reserved counter but appends no movement at all (the RELEASE movement is
logged by the calling service, not by `release`). -/
theorem C6_counterexample :
    dbHold.reservations.map Reservation.is_active = [true] ∧
    (StockReservation.release dbHold 0).map (fun d => d.movements.length) =
      some 0 ∧
    (StockReservation.release dbHold 0).map
      (fun d => (d.products 1).reserved_quantity) = some 0 := by
  decide

/-- C7: the claim "reserveForOrder rejects empty demand lists" is false: on
the empty demand list the service returns a successful empty reservation
list and leaves the database unchanged. -/
theorem C7_counterexample :
    InventoryService.reserve_stock_for_order baseDB [] 9 30 =
      (Except.ok [], baseDB) := rfl

/-- C8: the claim "after extend the new `expires_at` is strictly later than
the previous one" is false: the active reservation of `dbHold` expires at
100, but extending by 30 minutes at clock 0 rewrites `expires_at` to
`now + 30 = 30 < 100`. -/
theorem C8_counterexample :
    dbHold.reservations.map Reservation.expires_at = [some 100] ∧
    dbHold.reservations.map Reservation.is_active = [true] ∧
    dbHold.now = 0 ∧
    (InventoryService.extend_reservation dbHold 4 30).1 = true ∧
    (InventoryService.extend_reservation dbHold 4
        30).2.reservations.map Reservation.expires_at = [some 30] ∧
    (30 : Int) < 100 := by
  decide

/-- C9: the claim "for an untracked product every reservation operation
persists no new records" is false: `reserve_stock_for_order` on an untracked
product succeeds without touching the counters but still persists one
reservation row and one RESERVE movement. -/
theorem C9_counterexample :
    (dbVirtual.products 1).track_inventory = false ∧
    (InventoryService.reserve_stock_for_order dbVirtual
        [(1, 3)] 9 30).1.toOption = some [0] ∧
    (InventoryService.reserve_stock_for_order dbVirtual [(1, 3)] 9
        30).2.reservations.length = 1 ∧
    (InventoryService.reserve_stock_for_order dbVirtual [(1, 3)] 9
        30).2.movements.length = 1 ∧
    (InventoryService.reserve_stock_for_order dbVirtual [(1, 3)] 9
        30).2.products 1 = dbVirtual.products 1 := by
  decide

@[simp]
theorem putOrder_orders (db : DB) (oid : Nat) (o : Order) (i : Nat) :
    (putOrder db oid o).orders i = if i = oid then o else db.orders i := rfl

@[simp]
theorem putOrder_products (db : DB) (oid : Nat) (o : Order) :
    (putOrder db oid o).products = db.products := rfl

@[simp]
theorem putOrder_reservations (db : DB) (oid : Nat) (o : Order) :
    (putOrder db oid o).reservations = db.reservations := rfl

@[simp]
theorem putOrder_movements (db : DB) (oid : Nat) (o : Order) :
    (putOrder db oid o).movements = db.movements := rfl

/-- C7 (amended): on the empty demand list `reserve_stock_for_order` does
not fail — it returns a successful empty reservation list and changes
nothing; the order-level wrapper then takes the `if reservations:` branch as
falsy, returns `False`, and leaves a draft order with no items in `draft`
(it does not transition it to `reserved`). -/
theorem C7_amended :
    (∀ (db : DB) (oid : Nat) (ttl : Int),
      InventoryService.reserve_stock_for_order db [] oid ttl =
        (Except.ok [], db)) ∧
    (∀ (db : DB) (oid : Nat) (ttl : Int),
      (db.orders oid).status = OrderStatus.draft →
      (db.orders oid).items = [] →
      Order.reserve_stock db oid ttl = (false, db)) := by
  have h1 : ∀ (db : DB) (oid : Nat) (ttl : Int),
      InventoryService.reserve_stock_for_order db [] oid ttl =
        (Except.ok [], db) := fun _ _ _ => rfl
  refine ⟨h1, ?_⟩
  intro db oid ttl hs hi
  unfold Order.reserve_stock
  simp only [hs, hi, List.map_nil, h1, ne_eq, not_true_eq_false, if_false]

/-- C7 witness: the wrapper on `baseDB`'s empty draft order 0 returns
`False` and leaves the database unchanged. -/
theorem C7_witness : Order.reserve_stock baseDB 0 30 = (false, baseDB) :=
  C7_amended.2 baseDB 0 30 rfl rfl

/-- C10: a cancellable order (status in draft/reserved/pending/confirmed)
is always marked cancelled with `is_reservation_active = False` and
`cancel_order` returns `True`, regardless of the boolean
`cancel_order_reservations` returned; concretely, on `dbCorrupt` the release
fails (`cancel_order_reservations` returns `False`) yet the order is
cancelled while its reservation stays active and the stock stays
reserved. -/
theorem C10_theorem :
    (∀ (db : DB) (oid : Nat), Order.can_be_cancelled (db.orders oid) = true →
      (Order.cancel_order db oid).1 = true ∧
      ((Order.cancel_order db oid).2.orders oid).status =
        OrderStatus.cancelled ∧
      ((Order.cancel_order db oid).2.orders oid).is_reservation_active =
        false) ∧
    ((InventoryService.cancel_order_reservations dbCorrupt 7).1 = false ∧
     (Order.cancel_order dbCorrupt 7).1 = true ∧
     ((Order.cancel_order dbCorrupt 7).2.orders 7).status =
       OrderStatus.cancelled ∧
     (Order.cancel_order dbCorrupt 7).2.reservations.map
       Reservation.is_active = [true] ∧
     ((Order.cancel_order dbCorrupt 7).2.products 1).reserved_quantity
       = 1) := by
  constructor
  · intro db oid h
    unfold Order.cancel_order
    simp [h]
  · decide

/-- C10 witness: the general statement applied to the concrete corrupted
database. -/
theorem C10_witness :
    (Order.cancel_order dbCorrupt 7).1 = true ∧
    ((Order.cancel_order dbCorrupt 7).2.orders 7).status =
      OrderStatus.cancelled ∧
    ((Order.cancel_order dbCorrupt 7).2.orders 7).is_reservation_active =
      false :=
  C10_theorem.1 dbCorrupt 7 (by decide)

/-! ## Sorting lemmas -/

theorem insertByPid_perm (x : Nat × Nat) (l : List (Nat × Nat)) :
    (insertByPid x l).Perm (x :: l) := by
  induction l with
  | nil => exact List.Perm.refl _
  | cons y ys ih =>
    unfold insertByPid
    split
    · exact (ih.cons y).trans (List.Perm.swap x y ys)
    · exact List.Perm.refl _

theorem sortByPid_aux_perm (l : List (Nat × Nat)) :
    ∀ acc : List (Nat × Nat),
      (l.foldl (fun a x => insertByPid x a) acc).Perm (acc ++ l) := by
  induction l with
  | nil => intro acc; simp
  | cons x xs ih =>
    intro acc
    have h1 := ih (insertByPid x acc)
    have h2 : (insertByPid x acc ++ xs).Perm ((x :: acc) ++ xs) :=
      (insertByPid_perm x acc).append_right xs
    exact (h1.trans h2).trans List.perm_middle.symm

theorem sortByPid_perm (l : List (Nat × Nat)) : (sortByPid l).Perm l := by
  simpa using sortByPid_aux_perm l []

/-! ## C3 — all-or-nothing reservation on a failed availability check -/

theorem reserve_fail_of_find (db : DB) (items : List (Nat × Nat))
    (oid : Nat) (ttl : Int) (a : Nat × Nat)
    (hfind : (sortByPid items).find?
      (fun it => !(Product.can_reserve (db.products it.1) it.2)) = some a) :
    InventoryService.reserve_stock_for_order db items oid ttl =
      (Except.error (InventoryError.insufficientStock a.1
        (db.products a.1).available_quantity a.2), db) := by
  unfold InventoryService.reserve_stock_for_order
  dsimp only
  rw [hfind]

/-- C3: if some demand fails the availability check, `reserve_stock_for_order`
fails with `InsufficientStock` and returns the database unchanged: zero
reservations are created, zero RESERVE movements are logged, and every
product's counters keep their pre-call values. -/
theorem C3_theorem (db : DB) (items : List (Nat × Nat)) (oid : Nat)
    (ttl : Int)
    (hfail : ∃ it ∈ items, Product.can_reserve (db.products it.1) it.2
      = false) :
    ∃ p av q, InventoryService.reserve_stock_for_order db items oid ttl =
      (Except.error (InventoryError.insufficientStock p av q), db) := by
  obtain ⟨it, hmem, hf⟩ := hfail
  have hmem' : it ∈ sortByPid items := (sortByPid_perm items).mem_iff.mpr hmem
  have hsome : ((sortByPid items).find?
      (fun a => !(Product.can_reserve (db.products a.1) a.2))).isSome := by
    rw [List.find?_isSome]
    exact ⟨it, hmem', by simp [hf]⟩
  cases hfind : (sortByPid items).find?
      (fun a => !(Product.can_reserve (db.products a.1) a.2)) with
  | none => rw [hfind] at hsome; simp at hsome
  | some a =>
    exact ⟨a.1, (db.products a.1).available_quantity, a.2,
      reserve_fail_of_find db items oid ttl a hfind⟩

/-- C3 witness: product 1 (earlier in sort order) has enough stock for its
demand of 3, product 2 does not have 11; the joint call fails leaving
`baseDB` untouched. -/
theorem C3_witness :
    Product.can_reserve (baseDB.products 1) 3 = true ∧
    Product.can_reserve (baseDB.products 2) 11 = false ∧
    (∃ p av q,
      InventoryService.reserve_stock_for_order baseDB [(1, 3), (2, 11)] 9 30 =
        (Except.error (InventoryError.insufficientStock p av q), baseDB)) :=
  ⟨by decide, by decide,
   C3_theorem baseDB [(1, 3), (2, 11)] 9 30 (by decide)⟩

/-! ## Frame lemmas: each model-level operation touches only its product -/

theorem release_reservation_products_ne (db : DB) (pid q : Nat) (db' : DB)
    (h : Product.release_reservation db pid q = some db') (i : Nat)
    (hne : i ≠ pid) : db'.products i = db.products i := by
  unfold Product.release_reservation at h
  dsimp only at h
  split at h
  · cases h; rfl
  · obtain ⟨-, -, -, rfl⟩ := trySetCounters_some _ _ _ _ _ _ h
    simp [hne]

theorem reserve_stock_products_ne (db : DB) (pid q : Nat) (b : Bool)
    (db' : DB) (h : Product.reserve_stock db pid q = some (b, db')) (i : Nat)
    (hne : i ≠ pid) : db'.products i = db.products i := by
  unfold Product.reserve_stock at h
  dsimp only at h
  split at h
  · cases h; rfl
  · split at h
    · split at h
      · rename_i db1 heq
        cases h
        obtain ⟨-, -, -, rfl⟩ := trySetCounters_some _ _ _ _ _ _ heq
        simp [hne]
      · exact absurd h (by simp)
    · cases h; rfl

theorem allocate_stock_products_ne (db : DB) (pid q : Nat) (b : Bool)
    (db' : DB) (h : Product.allocate_stock db pid q = some (b, db')) (i : Nat)
    (hne : i ≠ pid) : db'.products i = db.products i := by
  unfold Product.allocate_stock at h
  dsimp only at h
  split at h
  · cases h; rfl
  · split at h
    · split at h
      · rename_i db1 heq
        cases h
        obtain ⟨-, -, -, rfl⟩ := trySetCounters_some _ _ _ _ _ _ heq
        simp [hne]
      · exact absurd h (by simp)
    · cases h; rfl

theorem deallocate_stock_products_ne (db : DB) (pid q : Nat) (b : Bool)
    (db' : DB) (h : Product.deallocate_stock db pid q = some (b, db'))
    (i : Nat) (hne : i ≠ pid) : db'.products i = db.products i := by
  unfold Product.deallocate_stock at h
  dsimp only at h
  split at h
  · cases h; rfl
  · split at h
    · rename_i db1 heq
      cases h
      obtain ⟨-, -, -, rfl⟩ := trySetCounters_some _ _ _ _ _ _ heq
      simp [hne]
    · exact absurd h (by simp)

theorem trySetCounters_products_ne (db : DB) (pid : Nat) (s r a : Int)
    (db' : DB) (h : trySetCounters db pid s r a = some db') (i : Nat)
    (hne : i ≠ pid) : db'.products i = db.products i := by
  obtain ⟨-, -, -, rfl⟩ := trySetCounters_some _ _ _ _ _ _ h
  simp [hne]

/-! ## C5 — fulfillment requires sufficient allocation -/

theorem deallocate_stock_none_of_lt (db : DB) (pid q : Nat)
    (htrack : (db.products pid).track_inventory = true)
    (hlt : (db.products pid).allocated_quantity < (q : Int)) :
    Product.deallocate_stock db pid q = none := by
  have hneg : ¬(0 ≤ (db.products pid).stock_quantity ∧
      0 ≤ (db.products pid).reserved_quantity ∧
      0 ≤ (db.products pid).allocated_quantity - (q : Int)) := by
    rintro ⟨-, -, h3⟩
    omega
  unfold Product.deallocate_stock
  dsimp only
  rw [htrack]
  simp only [Bool.not_true, Bool.false_eq_true, if_false]
  rw [trySetCounters_eq, if_neg hneg]

theorem fulfillLoop_cons (oid : Nat) (it : OrderItem) (rest : List OrderItem)
    (db : DB) :
    InventoryService.fulfillLoop oid (it :: rest) db =
      match Product.deallocate_stock db it.product_id it.quantity with
      | some (true, db1) =>
        match trySetCounters db1 it.product_id
            ((db1.products it.product_id).stock_quantity - it.quantity)
            (db1.products it.product_id).reserved_quantity
            (db1.products it.product_id).allocated_quantity with
        | some db2 =>
          InventoryService.fulfillLoop oid rest
            (InventoryService.log_stock_movement db2 it.product_id
              MovementType.outM (-(it.quantity : Int)) (some oid))
        | none => none
      | some (false, _) => none
      | none => none := rfl

theorem fulfillLoop_none (oid : Nat) :
    ∀ (items : List OrderItem) (db : DB),
      (items.map OrderItem.product_id).Nodup →
      (∃ it ∈ items, (db.products it.product_id).track_inventory = true ∧
        (db.products it.product_id).allocated_quantity < (it.quantity : Int)) →
      InventoryService.fulfillLoop oid items db = none := by
  intro items
  induction items with
  | nil => rintro db - ⟨x, hx, -⟩; simp at hx
  | cons it rest ih =>
    rintro db hnd ⟨x, hx, htrack, hlt⟩
    rcases List.mem_cons.mp hx with rfl | hxr
    · rw [fulfillLoop_cons,
        deallocate_stock_none_of_lt db x.product_id x.quantity htrack hlt]
    · have hne : x.product_id ≠ it.product_id := by
        have h1 : it.product_id ∉ rest.map OrderItem.product_id :=
          (List.nodup_cons.mp hnd).1
        intro hEq
        exact h1 (hEq ▸ List.mem_map_of_mem OrderItem.product_id hxr)
      rw [fulfillLoop_cons]
      cases hdeal : Product.deallocate_stock db it.product_id it.quantity with
      | none => rfl
      | some pr =>
        obtain ⟨b, db1⟩ := pr
        cases b
        · rfl
        · dsimp only
          cases hset : trySetCounters db1 it.product_id
              ((db1.products it.product_id).stock_quantity - it.quantity)
              (db1.products it.product_id).reserved_quantity
              (db1.products it.product_id).allocated_quantity with
          | none => rfl
          | some db2 =>
            dsimp only
            have hframe :
                (InventoryService.log_stock_movement db2 it.product_id
                  MovementType.outM (-(it.quantity : Int))
                  (some oid)).products x.product_id =
                  db.products x.product_id := by
              rw [log_stock_movement_products,
                trySetCounters_products_ne db1 _ _ _ _ _ hset _ hne,
                deallocate_stock_products_ne db _ _ _ _ hdeal _ hne]
            exact ih _ (List.nodup_cons.mp hnd).2
              ⟨x, hxr, by rw [hframe]; exact ⟨htrack, hlt⟩⟩

/-- C5: if some line of the order targets a tracked product whose
`allocated_quantity` is below the line quantity, `fulfill_order` is a hard
failure — it returns `False` with the database exactly as before the call
(the deallocation write violates the non-negativity constraint, the
transaction aborts, and no partial mutation persists). -/
theorem C5_theorem (db : DB) (oid : Nat)
    (hnd : ((db.orders oid).items.map OrderItem.product_id).Nodup)
    (hbad : ∃ it ∈ (db.orders oid).items,
      (db.products it.product_id).track_inventory = true ∧
      (db.products it.product_id).allocated_quantity < (it.quantity : Int)) :
    InventoryService.fulfill_order db oid = (false, db) := by
  unfold InventoryService.fulfill_order
  rw [fulfillLoop_none oid (db.orders oid).items db hnd hbad]

/-- C5 witness: order 7 of `dbFulfill` wants 3 of product 1 (allocated 5 —
fine) and 3 of product 2 (allocated 2 — short); fulfillment fails and
leaves everything untouched. -/
theorem C5_witness :
    InventoryService.fulfill_order dbFulfill 7 = (false, dbFulfill) :=
  C5_theorem dbFulfill 7 (by decide) ⟨{ product_id := 2, quantity := 3 },
    by decide, by decide, by decide⟩

/-! ## C8 — extending reservations -/

@[simp]
theorem extend_expiration_reservations (db : DB) (rid : Nat) (minutes : Int) :
    (StockReservation.extend_expiration db rid minutes).reservations =
      db.reservations.map fun r =>
        if r.rid = rid then { r with expires_at := some (db.now + minutes) }
        else r := rfl

@[simp]
theorem extend_expiration_now (db : DB) (rid : Nat) (minutes : Int) :
    (StockReservation.extend_expiration db rid minutes).now = db.now := rfl

theorem extendAll_now (minutes : Int) :
    ∀ (rs : List Reservation) (db : DB),
      (rs.foldl
        (fun d r => StockReservation.extend_expiration d r.rid minutes)
        db).now = db.now := by
  intro rs
  induction rs with
  | nil => intro db; rfl
  | cons r rest ih =>
    intro db
    rw [List.foldl_cons, ih, extend_expiration_now]

theorem extendAll_reservations (minutes : Int) :
    ∀ (rs : List Reservation) (db : DB),
      (rs.foldl
        (fun d r => StockReservation.extend_expiration d r.rid minutes)
        db).reservations =
        db.reservations.map fun s =>
          if s.rid ∈ rs.map Reservation.rid then
            { s with expires_at := some (db.now + minutes) }
          else s := by
  intro rs
  induction rs with
  | nil =>
    intro db
    simp
  | cons r rest ih =>
    intro db
    rw [List.foldl_cons, ih, extend_expiration_reservations,
      extend_expiration_now, List.map_map]
    refine List.map_congr_left ?_
    intro s _
    simp only [Function.comp_apply]
    by_cases h1 : s.rid = r.rid
    · by_cases h2 : s.rid ∈ rest.map Reservation.rid <;>
        simp [h1, h2]
    · by_cases h2 : s.rid ∈ rest.map Reservation.rid <;>
        simp [h1, h2]

/-- C8 (amended): extending by a positive duration always succeeds and
rewrites every active reservation of the order to expire at `now + minutes`
— strictly later than the current time, but not necessarily later than the
previous `expires_at` (the counterexample shows it can move earlier); other
reservations (inactive or of other orders) are untouched. -/
theorem C8_amended (db : DB) (oid : Nat) (minutes : Int)
    (hpos : 0 < minutes) :
    (InventoryService.extend_reservation db oid minutes).1 = true ∧
    db.now < db.now + minutes ∧
    (∀ r ∈ (InventoryService.extend_reservation db oid minutes).2.reservations,
      r.order_id = some oid → r.is_active = true →
        r.expires_at = some (db.now + minutes)) ∧
    (RidsOK db →
      ∀ r ∈ db.reservations, ¬(r.order_id = some oid ∧ r.is_active = true) →
        r ∈ (InventoryService.extend_reservation db oid minutes).2.reservations) := by
  have hres :
      (InventoryService.extend_reservation db oid minutes).2.reservations =
        db.reservations.map fun s =>
          if s.rid ∈ (InventoryService.activeOrderReservations db oid).map
              Reservation.rid then
            { s with expires_at := some (db.now + minutes) }
          else s := by
    show (List.foldl _ db _).reservations = _
    rw [extendAll_reservations]
  refine ⟨rfl, by omega, ?_, ?_⟩
  · intro r hr hord hact
    rw [hres] at hr
    obtain ⟨s, hs, hfs⟩ := List.mem_map.mp hr
    by_cases hin : s.rid ∈ (InventoryService.activeOrderReservations db
        oid).map Reservation.rid
    · rw [if_pos hin] at hfs
      rw [← hfs]
    · rw [if_neg hin] at hfs
      subst hfs
      exfalso
      apply hin
      apply List.mem_map_of_mem Reservation.rid
      unfold InventoryService.activeOrderReservations
      rw [List.mem_filter]
      exact ⟨hs, by simp [hord, hact]⟩
  · intro hrids r hr hnot
    have hnin : r.rid ∉ (InventoryService.activeOrderReservations db
        oid).map Reservation.rid := by
      intro hin
      obtain ⟨s, hs, hsr⟩ := List.mem_map.mp hin
      have hs' := List.mem_filter.mp hs
      have : s = r := List.inj_on_of_nodup_map hrids hs'.1 hr hsr
      subst this
      apply hnot
      have := hs'.2
      simp only [Bool.and_eq_true, decide_eq_true_eq] at this
      exact this
    rw [hres]
    have : (fun s =>
        if s.rid ∈ (InventoryService.activeOrderReservations db oid).map
            Reservation.rid then
          { s with expires_at := some (db.now + minutes) }
        else s) r = r := if_neg hnin
    rw [← this]
    exact List.mem_map_of_mem _ hr

/-- C8 witness: the amended statement applied to `dbHold`'s order 4 with a
30-minute extension. -/
theorem C8_witness :
    (InventoryService.extend_reservation dbHold 4 30).1 = true ∧
    dbHold.now < dbHold.now + 30 ∧
    (∀ r ∈ (InventoryService.extend_reservation dbHold 4 30).2.reservations,
      r.order_id = some 4 → r.is_active = true →
        r.expires_at = some (dbHold.now + 30)) :=
  ⟨(C8_amended dbHold 4 30 (by decide)).1,
   (C8_amended dbHold 4 30 (by decide)).2.1,
   (C8_amended dbHold 4 30 (by decide)).2.2.1⟩

/-! ## Release characterization -/

theorem release_reservation_some (db : DB) (pid q : Nat) (db' : DB)
    (h : Product.release_reservation db pid q = some db') :
    ((db.products pid).track_inventory = false ∧ db' = db) ∨
    ((db.products pid).track_inventory = true ∧
      0 ≤ (db.products pid).reserved_quantity - (q : Int) ∧
      db' = putProduct db pid { db.products pid with
        reserved_quantity := (db.products pid).reserved_quantity - q }) := by
  unfold Product.release_reservation at h
  dsimp only at h
  split at h
  · rename_i htrk
    cases h
    exact Or.inl ⟨by simpa using htrk, rfl⟩
  · rename_i htrk
    obtain ⟨-, h2, -, rfl⟩ := trySetCounters_some _ _ _ _ _ _ h
    exact Or.inr ⟨by simpa using htrk, h2, rfl⟩

theorem updateReservation_rids (db : DB) (rid : Nat)
    (f : Reservation → Reservation) (hf : ∀ r, (f r).rid = r.rid) :
    (updateReservation db rid f).reservations.map Reservation.rid =
      db.reservations.map Reservation.rid := by
  rw [updateReservation_reservations, List.map_map]
  refine List.map_congr_left fun r _ => ?_
  simp only [Function.comp_apply]
  split
  · exact hf r
  · rfl

theorem release_cases (db : DB) (rid : Nat) (db' : DB)
    (h : StockReservation.release db rid = some db') :
    (db' = db ∧ (db.reservations.find? (fun s => s.rid = rid) = none ∨
      ∃ r, db.reservations.find? (fun s => s.rid = rid) = some r ∧
        r.is_active = false)) ∨
    (∃ r dbp, db.reservations.find? (fun s => s.rid = rid) = some r ∧
      r.is_active = true ∧
      Product.release_reservation db r.product_id r.quantity = some dbp ∧
      db' = updateReservation dbp rid fun s => { s with is_active := false }) := by
  unfold StockReservation.release at h
  cases hfind : db.reservations.find? (fun s => s.rid = rid) with
  | none =>
    rw [hfind] at h
    cases h
    exact Or.inl ⟨rfl, Or.inl rfl⟩
  | some r =>
    rw [hfind] at h
    dsimp only at h
    by_cases hact : r.is_active
    · rw [if_pos hact] at h
      cases hrel : Product.release_reservation db r.product_id r.quantity with
      | none => rw [hrel] at h; exact absurd h (by simp)
      | some dbp =>
        rw [hrel] at h
        dsimp only at h
        cases h
        exact Or.inr ⟨r, dbp, rfl, hact, hrel, rfl⟩
    · rw [if_neg hact] at h
      cases h
      exact Or.inl ⟨rfl, Or.inr ⟨r, rfl, by simpa using hact⟩⟩

theorem release_rids (db : DB) (rid : Nat) (db' : DB)
    (h : StockReservation.release db rid = some db') :
    db'.reservations.map Reservation.rid =
      db.reservations.map Reservation.rid := by
  rcases release_cases db rid db' h with ⟨rfl, -⟩ | ⟨r, dbp, -, -, hrel, rfl⟩
  · rfl
  · rw [updateReservation_rids dbp rid
      (fun s => { s with is_active := false }) fun s => rfl]
    rcases release_reservation_some db _ _ _ hrel with ⟨-, rfl⟩ | ⟨-, -, rfl⟩
    · rfl
    · rfl

theorem release_movements (db : DB) (rid : Nat) (db' : DB)
    (h : StockReservation.release db rid = some db') :
    db'.movements = db.movements := by
  rcases release_cases db rid db' h with ⟨rfl, -⟩ | ⟨r, dbp, -, -, hrel, rfl⟩
  · rfl
  · rw [updateReservation_movements]
    rcases release_reservation_some db _ _ _ hrel with ⟨-, rfl⟩ | ⟨-, -, rfl⟩
    · rfl
    · rfl

/-! ## C6 — idempotent release and its movement logging -/

theorem release_idem (db : DB) (rid : Nat) (db' : DB)
    (h : StockReservation.release db rid = some db') :
    StockReservation.release db' rid = some db' := by
  rcases release_cases db rid db' h with ⟨rfl, -⟩ | ⟨r, dbp, hfind, hact, hrel, rfl⟩
  · exact h
  · have hr : r.rid = rid := by simpa using List.find?_some hfind
    have hdbp : dbp.reservations = db.reservations := by
      rcases release_reservation_some db _ _ _ hrel with ⟨-, rfl⟩ | ⟨-, -, rfl⟩ <;>
        rfl
    have hfind' :
        (updateReservation dbp rid fun s =>
            { s with is_active := false }).reservations.find?
          (fun s => s.rid = rid) = some { r with is_active := false } := by
      rw [updateReservation_reservations, List.find?_map]
      have hp : ((fun s : Reservation => decide (s.rid = rid)) ∘
          fun s => if s.rid = rid then { s with is_active := false } else s) =
          fun s : Reservation => decide (s.rid = rid) := by
        funext s
        by_cases hs : s.rid = rid <;> simp [hs]
      rw [hp, hdbp, hfind]
      simp [hr]
    unfold StockReservation.release
    rw [hfind']
    rfl

theorem cancelLoop_cons (oid : Nat) (r : Reservation) (rest : List Reservation)
    (db : DB) :
    InventoryService.cancelLoop oid (r :: rest) db =
      match StockReservation.release db r.rid with
      | some db1 =>
        InventoryService.cancelLoop oid rest
          (InventoryService.log_stock_movement db1 r.product_id
            MovementType.releaseM (r.quantity : Int) (some oid))
      | none => none := rfl

theorem cancelLoop_clears (oid : Nat) :
    ∀ (L : List Reservation) (db db' : DB),
      (db.reservations.map Reservation.rid).Nodup →
      (∀ s ∈ db.reservations, s.order_id = some oid → s.is_active = true →
        s.rid ∈ L.map Reservation.rid) →
      InventoryService.cancelLoop oid L db = some db' →
      ∀ s ∈ db'.reservations, s.order_id = some oid → s.is_active = false := by
  intro L
  induction L with
  | nil =>
    intro db db' hnd hcov h s hs hord
    cases h
    by_contra hact
    have hact' : s.is_active = true := by
      revert hact; cases s.is_active <;> simp
    have := hcov s hs hord hact'
    simp at this
  | cons r rest ih =>
    intro db db' hnd hcov h
    rw [cancelLoop_cons] at h
    cases hrel : StockReservation.release db r.rid with
    | none => rw [hrel] at h; exact absurd h (by simp)
    | some db1 =>
      rw [hrel] at h
      dsimp only at h
      refine ih _ db' ?_ ?_ h
      · rw [log_stock_movement_reservations, release_rids db _ _ hrel]
        exact hnd
      · intro s hs hord hact
        rw [log_stock_movement_reservations] at hs
        rcases release_cases db r.rid db1 hrel with ⟨rfl, hside⟩ |
          ⟨r0, dbp, hfind, hact0, hrel0, rfl⟩
        · have hmem := hcov s hs hord hact
          rw [List.map_cons, List.mem_cons] at hmem
          rcases hmem with heq | hmem'
          · exfalso
            rcases hside with hnone | ⟨r0, hfind, hina⟩
            · have := List.find?_eq_none.mp hnone s hs
              simp [heq] at this
            · have hr0mem := List.mem_of_find?_eq_some hfind
              have hr0rid : r0.rid = r.rid := by
                simpa using List.find?_some hfind
              have hsr0 : s = r0 :=
                List.inj_on_of_nodup_map hnd hs hr0mem (by rw [heq, hr0rid])
              rw [hsr0, hina] at hact
              exact Bool.false_ne_true hact
          · exact hmem'
        · have hdbp : dbp.reservations = db.reservations := by
            rcases release_reservation_some db _ _ _ hrel0 with
              ⟨-, rfl⟩ | ⟨-, -, rfl⟩ <;> rfl
          rw [updateReservation_reservations, hdbp] at hs
          obtain ⟨t, ht, hft⟩ := List.mem_map.mp hs
          by_cases hteq : t.rid = r.rid
          · exfalso
            rw [if_pos hteq] at hft
            rw [← hft] at hact
            exact Bool.false_ne_true hact
          · rw [if_neg hteq] at hft
            subst hft
            have hmem := hcov t ht hord hact
            rw [List.map_cons, List.mem_cons] at hmem
            rcases hmem with h1 | h2
            · exact absurd h1 hteq
            · exact h2

/-- C6 (amended): `release()` on an active reservation decrements the owning
product's `reserved_quantity` by the reservation's quantity, deactivates it,
and logs no movement itself — the RELEASE movement is logged by the calling
service; a second `release()` is a no-op.  At the service level,
`cancel_order_reservations` logs one RELEASE per released reservation, and
calling it a second time finds no active reservation and changes nothing, so
two cancels produce one RELEASE movement per reservation, not two. -/
theorem C6_amended :
    (∀ (db : DB) (rid : Nat) (r : Reservation),
      db.reservations.find? (fun s => s.rid = rid) = some r →
      r.is_active = true →
      (db.products r.product_id).track_inventory = true →
      CountersWF db →
      (r.quantity : Int) ≤ (db.products r.product_id).reserved_quantity →
      ∃ db', StockReservation.release db rid = some db' ∧
        db'.movements = db.movements ∧
        (db'.products r.product_id).reserved_quantity =
          (db.products r.product_id).reserved_quantity - r.quantity ∧
        StockReservation.release db' rid = some db') ∧
    (∀ (db : DB) (oid : Nat), RidsOK db →
      (InventoryService.cancel_order_reservations db oid).1 = true →
      InventoryService.cancel_order_reservations
        (InventoryService.cancel_order_reservations db oid).2 oid =
        (true, (InventoryService.cancel_order_reservations db oid).2)) := by
  constructor
  · intro db rid r hfind hact htrack hwf hge
    have hrel : Product.release_reservation db r.product_id r.quantity =
        some (putProduct db r.product_id { db.products r.product_id with
          reserved_quantity :=
            (db.products r.product_id).reserved_quantity - r.quantity }) := by
      unfold Product.release_reservation
      dsimp only
      rw [if_neg (by simp [htrack] :
        ¬((!(db.products r.product_id).track_inventory) = true))]
      rw [trySetCounters_eq,
        if_pos ⟨(hwf r.product_id).1, by omega, (hwf r.product_id).2.2⟩]
    have hR : StockReservation.release db rid =
        some (updateReservation
          (putProduct db r.product_id { db.products r.product_id with
            reserved_quantity :=
              (db.products r.product_id).reserved_quantity - r.quantity })
          rid fun s => { s with is_active := false }) := by
      unfold StockReservation.release
      rw [hfind]
      dsimp only
      rw [if_pos hact, hrel]
    refine ⟨_, hR, rfl, ?_, release_idem _ _ _ hR⟩
    simp
  · intro db oid hrids h1
    cases hloop : InventoryService.cancelLoop oid
        (InventoryService.activeOrderReservations db oid) db with
    | none =>
      exfalso
      unfold InventoryService.cancel_order_reservations at h1
      rw [hloop] at h1
      simp at h1
    | some db1 =>
      have h2 : InventoryService.cancel_order_reservations db oid =
          (true, db1) := by
        unfold InventoryService.cancel_order_reservations
        rw [hloop]
      rw [h2]
      have hclear : ∀ s ∈ db1.reservations, s.order_id = some oid →
          s.is_active = false := by
        refine cancelLoop_clears oid _ db db1 hrids ?_ hloop
        intro s hs hord hact
        refine List.mem_map_of_mem Reservation.rid ?_
        unfold InventoryService.activeOrderReservations
        rw [List.mem_filter]
        exact ⟨hs, by simp [hord, hact]⟩
      have hfilter : InventoryService.activeOrderReservations db1 oid = [] := by
        unfold InventoryService.activeOrderReservations
        rw [List.filter_eq_nil_iff]
        intro s hs
        by_cases hord : s.order_id = some oid
        · have := hclear s hs hord
          simp [this]
        · simp [hord]
      unfold InventoryService.cancel_order_reservations
      rw [hfilter]
      rfl

/-- C6 witness: the model-level statement applied to `dbHold`'s reservation
0 and the service-level statement applied to order 4. -/
theorem C6_witness :
    (∃ db', StockReservation.release dbHold 0 = some db' ∧
      db'.movements = dbHold.movements ∧
      (db'.products 1).reserved_quantity =
        (dbHold.products 1).reserved_quantity - 3 ∧
      StockReservation.release db' 0 = some db') ∧
    InventoryService.cancel_order_reservations
      (InventoryService.cancel_order_reservations dbHold 4).2 4 =
      (true, (InventoryService.cancel_order_reservations dbHold 4).2) := by
  constructor
  · have h := C6_amended.1 dbHold 0
      { rid := 0, product_id := 1, quantity := 3, expires_at := some 100,
        is_active := true, order_id := some 4 }
      (by decide) (by decide) (by decide)
      (fun _ => (by decide : (0 : Int) ≤ 10 ∧ (0 : Int) ≤ 3 ∧ (0 : Int) ≤ 0))
      (by decide)
    exact h
  · exact C6_amended.2 dbHold 4 (by decide) (by decide)

/-! ## Characterization of the remaining model-level operations -/

theorem reserve_stock_some (db : DB) (pid q : Nat) (b : Bool) (db' : DB)
    (h : Product.reserve_stock db pid q = some (b, db')) :
    ((db.products pid).track_inventory = false ∧ b = true ∧ db' = db) ∨
    ((db.products pid).track_inventory = true ∧
      (q : Int) ≤ (db.products pid).available_quantity ∧
      0 ≤ (db.products pid).reserved_quantity + q ∧ b = true ∧
      db' = (addReservation (putProduct db pid { db.products pid with
        reserved_quantity := (db.products pid).reserved_quantity + q })
        pid q none none).1) ∨
    ((db.products pid).track_inventory = true ∧
      ¬((q : Int) ≤ (db.products pid).available_quantity) ∧ b = false ∧
      db' = db) := by
  unfold Product.reserve_stock at h
  dsimp only at h
  split at h
  · rename_i htrk
    cases h
    exact Or.inl ⟨by simpa using htrk, rfl, rfl⟩
  · rename_i htrk
    have htrk' : (db.products pid).track_inventory = true := by
      simpa using htrk
    split at h
    · rename_i hav
      split at h
      · rename_i db1 heq
        cases h
        obtain ⟨-, h2, -, rfl⟩ := trySetCounters_some _ _ _ _ _ _ heq
        exact Or.inr (Or.inl ⟨htrk', hav, h2, rfl, rfl⟩)
      · exact absurd h (by simp)
    · rename_i hav
      cases h
      exact Or.inr (Or.inr ⟨htrk', hav, rfl, rfl⟩)

theorem allocate_stock_some (db : DB) (pid q : Nat) (b : Bool) (db' : DB)
    (h : Product.allocate_stock db pid q = some (b, db')) :
    ((db.products pid).track_inventory = false ∧ b = true ∧ db' = db) ∨
    ((db.products pid).track_inventory = true ∧
      (q : Int) ≤ (db.products pid).reserved_quantity ∧
      0 ≤ (db.products pid).allocated_quantity + q ∧ b = true ∧
      db' = putProduct db pid { db.products pid with
        reserved_quantity := (db.products pid).reserved_quantity - q,
        allocated_quantity := (db.products pid).allocated_quantity + q }) ∨
    ((db.products pid).track_inventory = true ∧
      ¬((q : Int) ≤ (db.products pid).reserved_quantity) ∧ b = false ∧
      db' = db) := by
  unfold Product.allocate_stock at h
  dsimp only at h
  split at h
  · rename_i htrk
    cases h
    exact Or.inl ⟨by simpa using htrk, rfl, rfl⟩
  · rename_i htrk
    have htrk' : (db.products pid).track_inventory = true := by
      simpa using htrk
    split at h
    · rename_i hav
      split at h
      · rename_i db1 heq
        cases h
        obtain ⟨-, -, h3, rfl⟩ := trySetCounters_some _ _ _ _ _ _ heq
        exact Or.inr (Or.inl ⟨htrk', hav, h3, rfl, rfl⟩)
      · exact absurd h (by simp)
    · rename_i hav
      cases h
      exact Or.inr (Or.inr ⟨htrk', hav, rfl, rfl⟩)

theorem deallocate_stock_some (db : DB) (pid q : Nat) (b : Bool) (db' : DB)
    (h : Product.deallocate_stock db pid q = some (b, db')) :
    ((db.products pid).track_inventory = false ∧ b = true ∧ db' = db) ∨
    ((db.products pid).track_inventory = true ∧
      0 ≤ (db.products pid).allocated_quantity - q ∧ b = true ∧
      db' = putProduct db pid { db.products pid with
        allocated_quantity := (db.products pid).allocated_quantity - q }) := by
  unfold Product.deallocate_stock at h
  dsimp only at h
  split at h
  · rename_i htrk
    cases h
    exact Or.inl ⟨by simpa using htrk, rfl, rfl⟩
  · rename_i htrk
    have htrk' : (db.products pid).track_inventory = true := by
      simpa using htrk
    split at h
    · rename_i db1 heq
      cases h
      obtain ⟨-, -, h3, rfl⟩ := trySetCounters_some _ _ _ _ _ _ heq
      exact Or.inr ⟨htrk', h3, rfl, rfl⟩
    · exact absurd h (by simp)

/-! ## C1 — invariant preservation machinery -/

theorem InvAll_of_products_eq (db db' : DB)
    (h : ∀ i, db'.products i = db.products i) (hinv : InvAll db) :
    InvAll db' := fun pid => h pid ▸ hinv pid

theorem InvAll_putProduct (db : DB) (pid : Nat) (p : Product)
    (hinv : InvAll db) (hp : prodInv p) : InvAll (putProduct db pid p) := by
  intro i
  rw [putProduct_products]
  split
  · exact hp
  · exact hinv i

theorem inv_reserve_stock (db : DB) (pid q : Nat) (b : Bool) (db' : DB)
    (h : Product.reserve_stock db pid q = some (b, db'))
    (hinv : InvAll db) : InvAll db' := by
  rcases reserve_stock_some _ _ _ _ _ h with ⟨-, -, rfl⟩ |
    ⟨htrk, hav, -, -, rfl⟩ | ⟨-, -, -, rfl⟩
  · exact hinv
  · refine InvAll_of_products_eq _ _ (fun i => by rw [addReservation_products])
      (InvAll_putProduct db pid _ hinv ?_)
    intro _
    have hi := hinv pid htrk
    have h0 : (0 : Int) ≤ (db.products pid).stock_quantity -
        (db.products pid).reserved_quantity -
        (db.products pid).allocated_quantity := by omega
    rw [Product.available_quantity, max_eq_right h0] at hav
    show (db.products pid).reserved_quantity + q +
      (db.products pid).allocated_quantity ≤ (db.products pid).stock_quantity
    omega
  · exact hinv

theorem inv_release_reservation (db : DB) (pid q : Nat) (db' : DB)
    (h : Product.release_reservation db pid q = some db')
    (hinv : InvAll db) : InvAll db' := by
  rcases release_reservation_some _ _ _ _ h with ⟨-, rfl⟩ | ⟨htrk, -, rfl⟩
  · exact hinv
  · refine InvAll_putProduct db pid _ hinv ?_
    intro _
    have hi := hinv pid htrk
    show (db.products pid).reserved_quantity - q +
      (db.products pid).allocated_quantity ≤ (db.products pid).stock_quantity
    omega

theorem inv_allocate_stock (db : DB) (pid q : Nat) (b : Bool) (db' : DB)
    (h : Product.allocate_stock db pid q = some (b, db'))
    (hinv : InvAll db) : InvAll db' := by
  rcases allocate_stock_some _ _ _ _ _ h with ⟨-, -, rfl⟩ |
    ⟨htrk, -, -, -, rfl⟩ | ⟨-, -, -, rfl⟩
  · exact hinv
  · refine InvAll_putProduct db pid _ hinv ?_
    intro _
    have hi := hinv pid htrk
    show (db.products pid).reserved_quantity - q +
      ((db.products pid).allocated_quantity + q) ≤
      (db.products pid).stock_quantity
    omega
  · exact hinv

theorem inv_release (db : DB) (rid : Nat) (db' : DB)
    (h : StockReservation.release db rid = some db')
    (hinv : InvAll db) : InvAll db' := by
  rcases release_cases _ _ _ h with ⟨rfl, -⟩ | ⟨r, dbp, -, -, hrel, rfl⟩
  · exact hinv
  · exact InvAll_of_products_eq _ _ (fun i => by rw [updateReservation_products])
      (inv_release_reservation _ _ _ _ hrel hinv)

theorem reserveLoop_cons (oid : Nat) (t : Int) (it : Nat × Nat)
    (rest : List (Nat × Nat)) (db : DB) (rids : List Nat)
    (created : List (Nat × Nat)) :
    InventoryService.reserveLoop oid t (it :: rest) db rids created =
      match Product.reserve_stock db it.1 it.2 with
      | some (true, db1) =>
        InventoryService.reserveLoop oid t rest
          (InventoryService.log_stock_movement
            (addReservation db1 it.1 it.2 (some t) (some oid)).1 it.1
            MovementType.reserveM (it.2 : Int) (some oid))
          ((addReservation db1 it.1 it.2 (some t) (some oid)).2 :: rids)
          ((it.1, it.2) :: created)
      | some (false, _) => .fail it.1 created
      | none => .fail it.1 created := rfl

theorem confirmLoop_cons (oid : Nat) (r : Reservation)
    (rest : List Reservation) (db : DB) :
    InventoryService.confirmLoop oid (r :: rest) db =
      match Product.allocate_stock db r.product_id r.quantity with
      | some (true, db1) =>
        InventoryService.confirmLoop oid rest
          (InventoryService.log_stock_movement
            (updateReservation db1 r.rid fun s => { s with is_active := false })
            r.product_id MovementType.allocateM (r.quantity : Int) (some oid))
      | some (false, _) => none
      | none => none := rfl

theorem sweepLoop_cons (r : Reservation) (rest : List Reservation)
    (count : Nat) (db : DB) :
    InventoryService.sweepLoop (r :: rest) (count, db) =
      match StockReservation.release db r.rid with
      | some db1 =>
        InventoryService.sweepLoop rest
          (count + 1,
           InventoryService.log_stock_movement db1 r.product_id
             MovementType.releaseM (r.quantity : Int) r.order_id)
      | none => InventoryService.sweepLoop rest (count, db) := rfl

theorem inv_reserveLoop_ok (oid : Nat) (t : Int) :
    ∀ (items : List (Nat × Nat)) (db : DB) (rids : List Nat)
      (created : List (Nat × Nat)) (rids' : List Nat) (db' : DB),
      InventoryService.reserveLoop oid t items db rids created =
        .ok rids' db' →
      InvAll db → InvAll db' := by
  intro items
  induction items with
  | nil =>
    intro db rids created rids' db' h hinv
    cases h
    exact hinv
  | cons it rest ih =>
    intro db rids created rids' db' h hinv
    rw [reserveLoop_cons] at h
    cases hres : Product.reserve_stock db it.1 it.2 with
    | none => rw [hres] at h; cases h
    | some pr =>
      obtain ⟨b, db1⟩ := pr
      cases b
      · rw [hres] at h; cases h
      · rw [hres] at h
        dsimp only at h
        refine ih _ _ _ _ _ h ?_
        exact InvAll_of_products_eq _ _ (fun i => by simp)
          (inv_reserve_stock _ _ _ _ _ hres hinv)

theorem inv_cleanup (created : List (Nat × Nat)) :
    ∀ db : DB, InvAll db →
      InvAll (InventoryService.cleanupReservations db created) := by
  induction created with
  | nil => intro db hinv; exact hinv
  | cons pq rest ih =>
    intro db hinv
    show InvAll (InventoryService.cleanupReservations
      ((Product.release_reservation db pq.1 pq.2).getD db) rest)
    refine ih _ ?_
    cases hrel : Product.release_reservation db pq.1 pq.2 with
    | none => simpa [hrel] using hinv
    | some d => simpa [hrel] using inv_release_reservation _ _ _ _ hrel hinv

theorem inv_confirmLoop (oid : Nat) :
    ∀ (L : List Reservation) (db db' : DB),
      InventoryService.confirmLoop oid L db = some db' →
      InvAll db → InvAll db' := by
  intro L
  induction L with
  | nil =>
    intro db db' h hinv
    cases h
    exact hinv
  | cons r rest ih =>
    intro db db' h hinv
    rw [confirmLoop_cons] at h
    cases halloc : Product.allocate_stock db r.product_id r.quantity with
    | none => rw [halloc] at h; cases h
    | some pr =>
      obtain ⟨b, db1⟩ := pr
      cases b
      · rw [halloc] at h; cases h
      · rw [halloc] at h
        dsimp only at h
        refine ih _ _ h ?_
        exact InvAll_of_products_eq _ _ (fun i => by simp)
          (inv_allocate_stock _ _ _ _ _ halloc hinv)

theorem inv_cancelLoop (oid : Nat) :
    ∀ (L : List Reservation) (db db' : DB),
      InventoryService.cancelLoop oid L db = some db' →
      InvAll db → InvAll db' := by
  intro L
  induction L with
  | nil =>
    intro db db' h hinv
    cases h
    exact hinv
  | cons r rest ih =>
    intro db db' h hinv
    rw [cancelLoop_cons] at h
    cases hrel : StockReservation.release db r.rid with
    | none => rw [hrel] at h; cases h
    | some db1 =>
      rw [hrel] at h
      dsimp only at h
      refine ih _ _ h ?_
      exact InvAll_of_products_eq _ _ (fun i => by simp)
        (inv_release _ _ _ hrel hinv)

theorem inv_fulfillLoop (oid : Nat) :
    ∀ (items : List OrderItem) (db db' : DB),
      InventoryService.fulfillLoop oid items db = some db' →
      InvAll db → InvAll db' := by
  intro items
  induction items with
  | nil =>
    intro db db' h hinv
    cases h
    exact hinv
  | cons it rest ih =>
    intro db db' h hinv
    rw [fulfillLoop_cons] at h
    cases hdeal : Product.deallocate_stock db it.product_id it.quantity with
    | none => rw [hdeal] at h; cases h
    | some pr =>
      obtain ⟨b, db1⟩ := pr
      cases b
      · rw [hdeal] at h; cases h
      · rw [hdeal] at h
        dsimp only at h
        cases hset : trySetCounters db1 it.product_id
            ((db1.products it.product_id).stock_quantity - it.quantity)
            (db1.products it.product_id).reserved_quantity
            (db1.products it.product_id).allocated_quantity with
        | none => rw [hset] at h; cases h
        | some db2 =>
          rw [hset] at h
          dsimp only at h
          refine ih _ _ h ?_
          have hinv2 : InvAll db2 := by
            obtain ⟨hs0, -, -, rfl⟩ := trySetCounters_some _ _ _ _ _ _ hset
            rcases deallocate_stock_some _ _ _ _ _ hdeal with
              ⟨htrk, -, rfl⟩ | ⟨htrk, h0, -, rfl⟩
            · -- untracked product: the invariant is vacuous for it
              refine InvAll_putProduct _ _ _ ?_ ?_
              · assumption
              · intro htr
                dsimp only at htr
                simp [htrk] at htr
            · -- tracked: moves out q from both allocated and stock
              refine InvAll_putProduct _ _ _
                (InvAll_putProduct _ _ _ ?_ ?_) ?_
              · assumption
              · intro _
                have hi := hinv it.product_id htrk
                dsimp only
                omega
              · intro _
                have hi := hinv it.product_id htrk
                simp only [putProduct_products, eq_self_iff_true, if_true]
                omega
          exact InvAll_of_products_eq _ _ (fun i => by simp) hinv2

theorem inv_sweepLoop :
    ∀ (L : List Reservation) (count : Nat) (db : DB),
      InvAll db → InvAll (InventoryService.sweepLoop L (count, db)).2 := by
  intro L
  induction L with
  | nil => intro count db hinv; exact hinv
  | cons r rest ih =>
    intro count db hinv
    rw [sweepLoop_cons]
    cases hrel : StockReservation.release db r.rid with
    | none => exact ih _ _ hinv
    | some db1 =>
      dsimp only
      refine ih _ _ ?_
      exact InvAll_of_products_eq _ _ (fun i => by simp)
        (inv_release _ _ _ hrel hinv)

theorem inv_reserve_op (db : DB) (items : List (Nat × Nat)) (oid : Nat)
    (ttl : Int) (hinv : InvAll db) :
    InvAll (InventoryService.reserve_stock_for_order db items oid ttl).2 := by
  unfold InventoryService.reserve_stock_for_order
  dsimp only
  cases hfind : (sortByPid items).find?
      (fun it => !(Product.can_reserve (db.products it.1) it.2)) with
  | some a => exact hinv
  | none =>
    cases hloop : InventoryService.reserveLoop oid (db.now + ttl)
        (sortByPid items) db [] [] with
    | ok rids db1 => exact inv_reserveLoop_ok _ _ _ _ _ _ _ _ hloop hinv
    | fail pid created => exact inv_cleanup created.reverse db hinv

theorem inv_confirm_op (db : DB) (oid : Nat) (hinv : InvAll db) :
    InvAll (InventoryService.confirm_order_reservations db oid).2 := by
  unfold InventoryService.confirm_order_reservations
  cases hloop : InventoryService.confirmLoop oid
      (InventoryService.activeOrderReservations db oid) db with
  | some db1 => exact inv_confirmLoop _ _ _ _ hloop hinv
  | none => exact hinv

theorem inv_cancel_op (db : DB) (oid : Nat) (hinv : InvAll db) :
    InvAll (InventoryService.cancel_order_reservations db oid).2 := by
  unfold InventoryService.cancel_order_reservations
  cases hloop : InventoryService.cancelLoop oid
      (InventoryService.activeOrderReservations db oid) db with
  | some db1 => exact inv_cancelLoop _ _ _ _ hloop hinv
  | none => exact hinv

theorem inv_fulfill_op (db : DB) (oid : Nat) (hinv : InvAll db) :
    InvAll (InventoryService.fulfill_order db oid).2 := by
  unfold InventoryService.fulfill_order
  cases hloop : InventoryService.fulfillLoop oid (db.orders oid).items db with
  | some db1 => exact inv_fulfillLoop _ _ _ _ hloop hinv
  | none => exact hinv

theorem inv_sweep_op (db : DB) (hinv : InvAll db) :
    InvAll (InventoryService.cleanup_expired_reservations db).2 :=
  inv_sweepLoop _ _ _ hinv

/-- C1 (amended): the invariant `reserved + allocated <= stock` for tracked
products holds for a freshly created product (all counters default to zero)
and is preserved by `reserveForOrder`, `confirmReservations`,
`cancelReservations`, `fulfill` and `sweepExpired`; `adjustStock` is the
exception — it overwrites `stock_quantity` without touching the other
counters and can therefore break the invariant (see the counterexample). -/
theorem C1_amended :
    (∀ track, prodInv (defaultProduct track)) ∧
    (∀ (db : DB) (items : List (Nat × Nat)) (oid : Nat) (ttl : Int),
      InvAll db →
      InvAll (InventoryService.reserve_stock_for_order db items oid ttl).2) ∧
    (∀ (db : DB) (oid : Nat), InvAll db →
      InvAll (InventoryService.confirm_order_reservations db oid).2) ∧
    (∀ (db : DB) (oid : Nat), InvAll db →
      InvAll (InventoryService.cancel_order_reservations db oid).2) ∧
    (∀ (db : DB) (oid : Nat), InvAll db →
      InvAll (InventoryService.fulfill_order db oid).2) ∧
    (∀ db : DB, InvAll db →
      InvAll (InventoryService.cleanup_expired_reservations db).2) :=
  ⟨fun _ _ => by simp [defaultProduct],
   fun db items oid ttl => inv_reserve_op db items oid ttl,
   fun db oid => inv_confirm_op db oid,
   fun db oid => inv_cancel_op db oid,
   fun db oid => inv_fulfill_op db oid,
   fun db => inv_sweep_op db⟩

/-- C1 witness: after reserving 3 units of product 1 on `baseDB`, product
1 still satisfies the invariant. -/
theorem C1_witness :
    prodInv ((InventoryService.reserve_stock_for_order baseDB
      [(1, 3)] 9 30).2.products 1) :=
  C1_amended.2.1 baseDB [(1, 3)] 9 30
    (fun _ => (by decide : prodInv (trackedProduct 10 0 0))) 1

/-! ## C4 — how many reservation rows a successful reserve creates -/

theorem demandSum_cons (it : Nat × Nat) (rest : List (Nat × Nat)) (p : Nat) :
    demandSum (it :: rest) p =
      (if it.1 = p then it.2 else 0) + demandSum rest p := by
  unfold demandSum
  by_cases h : it.1 = p <;> simp [h]

theorem demandSum_perm (l1 l2 : List (Nat × Nat)) (h : l1.Perm l2) (p : Nat) :
    demandSum l1 p = demandSum l2 p := by
  unfold demandSum
  exact ((h.filter _).map _).sum_eq

theorem reserve_step_stats (db : DB) (it : Nat × Nat) (t : Int) (oid : Nat)
    (db1 : DB) (htrk : (db.products it.1).track_inventory = true)
    (hres : Product.reserve_stock db it.1 it.2 = some (true, db1)) :
    (InventoryService.log_stock_movement
        (addReservation db1 it.1 it.2 (some t) (some oid)).1 it.1
        MovementType.reserveM (it.2 : Int) (some oid)).reservations.length =
      db.reservations.length + 2 ∧
    (∀ p, activeReservationSum
        (InventoryService.log_stock_movement
          (addReservation db1 it.1 it.2 (some t) (some oid)).1 it.1
          MovementType.reserveM (it.2 : Int) (some oid)) p =
      activeReservationSum db p + (if it.1 = p then 2 * it.2 else 0)) ∧
    (∀ p, ((InventoryService.log_stock_movement
        (addReservation db1 it.1 it.2 (some t) (some oid)).1 it.1
        MovementType.reserveM (it.2 : Int) (some oid)).products p).reserved_quantity =
      (db.products p).reserved_quantity +
        (if it.1 = p then (it.2 : Int) else 0)) ∧
    (∀ p, ((InventoryService.log_stock_movement
        (addReservation db1 it.1 it.2 (some t) (some oid)).1 it.1
        MovementType.reserveM (it.2 : Int) (some oid)).products p).track_inventory =
      (db.products p).track_inventory) := by
  rcases reserve_stock_some _ _ _ _ _ hres with ⟨hf, -, -⟩ |
    ⟨-, -, -, -, rfl⟩ | ⟨-, -, hb, -⟩
  · rw [htrk] at hf; cases hf
  · refine ⟨?_, ?_, ?_, ?_⟩
    · simp [activeReservationSum]
    · intro p
      unfold activeReservationSum
      simp only [log_stock_movement_reservations, addReservation_reservations,
        putProduct_reservations, List.filter_append, List.map_append,
        List.sum_append]
      by_cases hp : it.1 = p <;> simp [hp] <;> omega
    · intro p
      by_cases hp : it.1 = p
      · subst hp
        simp
      · have hp' : p ≠ it.1 := fun hEq => hp hEq.symm
        simp [hp, hp']
    · intro p
      by_cases hp : p = it.1
      · subst hp
        simp
      · simp [hp]
  · cases hb

theorem reserveLoop_ok_stats (oid : Nat) (t : Int) :
    ∀ (items : List (Nat × Nat)) (db : DB) (rids : List Nat)
      (created : List (Nat × Nat)) (rids' : List Nat) (db' : DB),
      (∀ it ∈ items, (db.products it.1).track_inventory = true) →
      InventoryService.reserveLoop oid t items db rids created =
        .ok rids' db' →
      rids'.length = rids.length + items.length ∧
      db'.reservations.length = db.reservations.length + 2 * items.length ∧
      (∀ p, activeReservationSum db' p =
        activeReservationSum db p + 2 * demandSum items p) ∧
      (∀ p, (db'.products p).reserved_quantity =
        (db.products p).reserved_quantity + (demandSum items p : Int)) := by
  intro items
  induction items with
  | nil =>
    intro db rids created rids' db' htrk h
    cases h
    refine ⟨by simp, by simp, fun p => by simp [demandSum], fun p => by
      simp [demandSum]⟩
  | cons it rest ih =>
    intro db rids created rids' db' htrk h
    rw [reserveLoop_cons] at h
    cases hres : Product.reserve_stock db it.1 it.2 with
    | none => rw [hres] at h; cases h
    | some pr =>
      obtain ⟨b, db1⟩ := pr
      cases b
      · rw [hres] at h; cases h
      · rw [hres] at h
        dsimp only at h
        have hstep := reserve_step_stats db it t oid db1
          (htrk it (List.mem_cons_self it rest)) hres
        have htrk' : ∀ it' ∈ rest,
            ((InventoryService.log_stock_movement
              (addReservation db1 it.1 it.2 (some t) (some oid)).1 it.1
              MovementType.reserveM (it.2 : Int) (some oid)).products
                it'.1).track_inventory = true := by
          intro it' hmem
          rw [hstep.2.2.2 it'.1]
          exact htrk it' (List.mem_cons_of_mem it hmem)
        obtain ⟨hlen, hres2, hsum, hcnt⟩ := ih _ _ _ _ _ htrk' h
        refine ⟨?_, ?_, ?_, ?_⟩
        · rw [hlen]; simp; omega
        · rw [hres2, hstep.1]; simp; omega
        · intro p
          rw [hsum p, hstep.2.1 p, demandSum_cons]
          by_cases hp : it.1 = p <;> simp [hp] <;> omega
        · intro p
          rw [hcnt p, hstep.2.2.1 p, demandSum_cons]
          by_cases hp : it.1 = p <;> simp [hp] <;> omega

/-- C4 (amended): for every demand list over tracked products, a successful
`reserve_stock_for_order` with n demands returns n reservation ids but
creates 2n active Reservation rows — `Product.reserve_stock` persists its
own model-level row in addition to the service's row — so every product's
`reserved_quantity` grows by its demanded quantity while the sum of its
active reservations' quantities grows by twice that amount. -/
theorem C4_amended (db : DB) (items : List (Nat × Nat)) (oid : Nat)
    (ttl : Int) (rids : List Nat)
    (htrk : ∀ it ∈ items, (db.products it.1).track_inventory = true)
    (h : (InventoryService.reserve_stock_for_order db items oid ttl).1 =
      Except.ok rids) :
    rids.length = items.length ∧
    (InventoryService.reserve_stock_for_order db items oid
      ttl).2.reservations.length =
      db.reservations.length + 2 * items.length ∧
    (∀ p, activeReservationSum
        (InventoryService.reserve_stock_for_order db items oid ttl).2 p =
      activeReservationSum db p + 2 * demandSum items p) ∧
    (∀ p, ((InventoryService.reserve_stock_for_order db items oid
        ttl).2.products p).reserved_quantity =
      (db.products p).reserved_quantity + (demandSum items p : Int)) := by
  have hperm := sortByPid_perm items
  unfold InventoryService.reserve_stock_for_order at h ⊢
  dsimp only at h ⊢
  cases hfind : (sortByPid items).find?
      (fun a => !(Product.can_reserve (db.products a.1) a.2)) with
  | some a =>
    rw [hfind] at h
    dsimp only at h
    cases h
  | none =>
    rw [hfind] at h
    dsimp only at h ⊢
    cases hloop : InventoryService.reserveLoop oid (db.now + ttl)
        (sortByPid items) db [] [] with
    | fail pid created =>
      rw [hloop] at h
      dsimp only at h
      cases h
    | ok rids0 db0 =>
      rw [hloop] at h
      dsimp only at h
      cases h
      dsimp only
      have htrk' : ∀ it ∈ sortByPid items,
          (db.products it.1).track_inventory = true :=
        fun it hit => htrk it (hperm.mem_iff.mp hit)
      obtain ⟨h1, h2, h3, h4⟩ :=
        reserveLoop_ok_stats oid (db.now + ttl) (sortByPid items) db [] []
          _ _ htrk' hloop
      refine ⟨?_, ?_, ?_, ?_⟩
      · rw [h1, hperm.length_eq]; simp
      · rw [h2, hperm.length_eq]
      · intro p
        rw [h3 p, demandSum_perm _ _ hperm]
      · intro p
        rw [h4 p, demandSum_perm _ _ hperm]

/-- C4 witness: the amended statement applied to the single demand
`[(1, 3)]` on `baseDB`. -/
theorem C4_witness :
    (InventoryService.reserve_stock_for_order baseDB
      [(1, 3)] 9 30).2.reservations.length =
      baseDB.reservations.length + 2 * 1 ∧
    activeReservationSum
      (InventoryService.reserve_stock_for_order baseDB [(1, 3)] 9 30).2 1 =
      activeReservationSum baseDB 1 + 2 * demandSum [(1, 3)] 1 ∧
    ((InventoryService.reserve_stock_for_order baseDB
      [(1, 3)] 9 30).2.products 1).reserved_quantity =
      (baseDB.products 1).reserved_quantity + (demandSum [(1, 3)] 1 : Int) :=
  ⟨(C4_amended baseDB [(1, 3)] 9 30 [1] (by decide) rfl).2.1,
   (C4_amended baseDB [(1, 3)] 9 30 [1] (by decide) rfl).2.2.1 1,
   (C4_amended baseDB [(1, 3)] 9 30 [1] (by decide) rfl).2.2.2 1⟩

/-! ## C9 — untracked products -/

theorem reserve_stock_untracked (db : DB) (pid q : Nat)
    (h : (db.products pid).track_inventory = false) :
    Product.reserve_stock db pid q = some (true, db) := by
  unfold Product.reserve_stock
  dsimp only
  rw [h]
  rfl

theorem reserveLoop_untracked (oid : Nat) (t : Int) :
    ∀ (items : List (Nat × Nat)) (db : DB) (rids : List Nat)
      (created : List (Nat × Nat)),
      (∀ it ∈ items, (db.products it.1).track_inventory = false) →
      ∃ rids' db',
        InventoryService.reserveLoop oid t items db rids created =
          .ok rids' db' ∧
        (∀ p, db'.products p = db.products p) ∧
        db'.reservations.length = db.reservations.length + items.length ∧
        db'.movements.length = db.movements.length + items.length := by
  intro items
  induction items with
  | nil =>
    intro db rids created _
    exact ⟨rids.reverse, db, rfl, fun p => rfl, by simp, by simp⟩
  | cons it rest ih =>
    intro db rids created huntrk
    obtain ⟨rids', db', hloop, hprod, hres, hmov⟩ :=
      ih (InventoryService.log_stock_movement
          (addReservation db it.1 it.2 (some t) (some oid)).1 it.1
          MovementType.reserveM (it.2 : Int) (some oid))
        ((addReservation db it.1 it.2 (some t) (some oid)).2 :: rids)
        ((it.1, it.2) :: created)
        (by
          intro it' hmem
          show (db.products it'.1).track_inventory = false
          exact huntrk it' (List.mem_cons_of_mem it hmem))
    refine ⟨rids', db', ?_, ?_, ?_, ?_⟩
    · rw [reserveLoop_cons,
        reserve_stock_untracked db it.1 it.2
          (huntrk it (List.mem_cons_self it rest))]
      exact hloop
    · intro p
      rw [hprod p]
      rfl
    · rw [hres]
      simp [addReservation]
      omega
    · rw [hmov]
      simp [InventoryService.log_stock_movement]
      omega

/-- C9 (amended): for an untracked product every model-level operation
(`can_reserve`, `reserve_stock`, `release_reservation`, `allocate_stock`,
`deallocate_stock`) succeeds as a strict no-op — counters unchanged, no row
persisted; but the engine-level `reserve_stock_for_order` is not a complete
no-op: it succeeds and leaves every product row unchanged, yet still
persists one Reservation row and one RESERVE movement per demand. -/
theorem C9_amended :
    (∀ (db : DB) (pid q : Nat),
      (db.products pid).track_inventory = false →
      Product.can_reserve (db.products pid) q = true ∧
      Product.reserve_stock db pid q = some (true, db) ∧
      Product.release_reservation db pid q = some db ∧
      Product.allocate_stock db pid q = some (true, db) ∧
      Product.deallocate_stock db pid q = some (true, db)) ∧
    (∀ (db : DB) (items : List (Nat × Nat)) (oid : Nat) (ttl : Int),
      (∀ it ∈ items, (db.products it.1).track_inventory = false) →
      ∃ rids,
        (InventoryService.reserve_stock_for_order db items oid ttl).1 =
          Except.ok rids ∧
        (∀ p, (InventoryService.reserve_stock_for_order db items oid
          ttl).2.products p = db.products p) ∧
        (InventoryService.reserve_stock_for_order db items oid
          ttl).2.reservations.length =
          db.reservations.length + items.length ∧
        (InventoryService.reserve_stock_for_order db items oid
          ttl).2.movements.length =
          db.movements.length + items.length) := by
  constructor
  · intro db pid q h
    refine ⟨?_, reserve_stock_untracked db pid q h, ?_, ?_, ?_⟩
    · unfold Product.can_reserve
      rw [h]
      rfl
    · unfold Product.release_reservation
      dsimp only
      rw [h]
      rfl
    · unfold Product.allocate_stock
      dsimp only
      rw [h]
      rfl
    · unfold Product.deallocate_stock
      dsimp only
      rw [h]
      rfl
  · intro db items oid ttl huntrk
    have hperm := sortByPid_perm items
    have huntrk' : ∀ it ∈ sortByPid items,
        (db.products it.1).track_inventory = false :=
      fun it hit => huntrk it (hperm.mem_iff.mp hit)
    have hfind : (sortByPid items).find?
        (fun a => !(Product.can_reserve (db.products a.1) a.2)) = none := by
      rw [List.find?_eq_none]
      intro a ha
      unfold Product.can_reserve
      rw [huntrk' a ha]
      simp
    obtain ⟨rids', db', hloop, hprod, hres, hmov⟩ :=
      reserveLoop_untracked oid (db.now + ttl) (sortByPid items) db [] []
        huntrk'
    refine ⟨rids', ?_⟩
    unfold InventoryService.reserve_stock_for_order
    dsimp only
    rw [hfind, hloop]
    dsimp only
    refine ⟨rfl, hprod, ?_, ?_⟩
    · rw [hres, hperm.length_eq]
    · rw [hmov, hperm.length_eq]

/-- C9 witness: the amended statement applied to the all-untracked
`dbVirtual` and the single demand `[(1, 3)]`. -/
theorem C9_witness :
    (Product.can_reserve (dbVirtual.products 1) 3 = true ∧
      Product.reserve_stock dbVirtual 1 3 = some (true, dbVirtual) ∧
      Product.release_reservation dbVirtual 1 3 = some dbVirtual ∧
      Product.allocate_stock dbVirtual 1 3 = some (true, dbVirtual) ∧
      Product.deallocate_stock dbVirtual 1 3 = some (true, dbVirtual)) ∧
    ∃ rids,
      (InventoryService.reserve_stock_for_order dbVirtual [(1, 3)] 9 30).1 =
        Except.ok rids ∧
      (∀ p, (InventoryService.reserve_stock_for_order dbVirtual [(1, 3)] 9
        30).2.products p = dbVirtual.products p) ∧
      (InventoryService.reserve_stock_for_order dbVirtual [(1, 3)] 9
        30).2.reservations.length = dbVirtual.reservations.length + 1 ∧
      (InventoryService.reserve_stock_for_order dbVirtual [(1, 3)] 9
        30).2.movements.length = dbVirtual.movements.length + 1 :=
  ⟨C9_amended.1 dbVirtual 1 3 rfl,
   C9_amended.2 dbVirtual [(1, 3)] 9 30 (fun _ _ => rfl)⟩

/-! ## C2 — ledger replay machinery -/

theorem specReplay_append (ms : List StockMovement) (m : StockMovement) :
    specReplay (ms ++ [m]) = specReplayStep (specReplay ms) m := by
  unfold specReplay
  rw [List.foldl_append]
  rfl

theorem movementsFor_log_self (db : DB) (pid : Nat) (t : MovementType)
    (q : Int) (ref : Option Nat) :
    movementsFor (InventoryService.log_stock_movement db pid t q ref) pid =
      movementsFor db pid ++
        [{ product_id := pid, movement_type := t, quantity := q,
           reference_id := ref,
           stock_after := (db.products pid).stock_quantity,
           reserved_after := (db.products pid).reserved_quantity,
           allocated_after := (db.products pid).allocated_quantity }] := by
  unfold movementsFor
  rw [log_stock_movement_movements, List.filter_append]
  simp

theorem movementsFor_log_ne (db : DB) (pid pid' : Nat) (hne : pid' ≠ pid)
    (t : MovementType) (q : Int) (ref : Option Nat) :
    movementsFor (InventoryService.log_stock_movement db pid' t q ref) pid =
      movementsFor db pid := by
  unfold movementsFor
  rw [log_stock_movement_movements, List.filter_append]
  simp [hne]

theorem movementsFor_congr (db0 db1 : DB) (pid : Nat)
    (hmov : db1.movements = db0.movements) :
    movementsFor db1 pid = movementsFor db0 pid := by
  unfold movementsFor
  rw [hmov]

theorem ReplayOK_log (db0 db1 : DB) (pid : Nat) (t : MovementType) (q : Int)
    (ref : Option Nat) (hmov : db1.movements = db0.movements)
    (hok : ReplayOK db0 pid)
    (hstep : specReplayStep (countersOf (db0.products pid))
        { product_id := pid, movement_type := t, quantity := q,
          reference_id := ref,
          stock_after := (db1.products pid).stock_quantity,
          reserved_after := (db1.products pid).reserved_quantity,
          allocated_after := (db1.products pid).allocated_quantity } =
      countersOf (db1.products pid)) :
    ReplayOK (InventoryService.log_stock_movement db1 pid t q ref) pid := by
  unfold ReplayOK
  rw [movementsFor_log_self, specReplay_append,
    movementsFor_congr db0 db1 pid hmov]
  unfold ReplayOK at hok
  rw [hok]
  exact hstep

theorem ReplayOK_log_ne (db0 db1 : DB) (pid pid' : Nat) (hne : pid' ≠ pid)
    (t : MovementType) (q : Int) (ref : Option Nat)
    (hmov : db1.movements = db0.movements)
    (hp : db1.products pid = db0.products pid)
    (hok : ReplayOK db0 pid) :
    ReplayOK (InventoryService.log_stock_movement db1 pid' t q ref) pid := by
  unfold ReplayOK
  rw [movementsFor_log_ne db1 pid pid' hne,
    movementsFor_congr db0 db1 pid hmov]
  unfold ReplayOK at hok
  rw [hok]
  show countersOf (db0.products pid) = countersOf (db1.products pid)
  rw [hp]

theorem ReplayOK_frame (db0 db1 : DB) (pid : Nat)
    (hmov : db1.movements = db0.movements)
    (hp : db1.products pid = db0.products pid)
    (hok : ReplayOK db0 pid) : ReplayOK db1 pid := by
  unfold ReplayOK at *
  rw [movementsFor_congr db0 db1 pid hmov, hok, hp]

theorem ReplayOK2_log_out (db0 db1 : DB) (pid : Nat) (q : Int)
    (ref : Option Nat) (hmov : db1.movements = db0.movements)
    (hst : (db1.products pid).stock_quantity =
      (db0.products pid).stock_quantity + q)
    (hrv : (db1.products pid).reserved_quantity =
      (db0.products pid).reserved_quantity)
    (hok : ReplayOK2 db0 pid) :
    ReplayOK2 (InventoryService.log_stock_movement db1 pid
      MovementType.outM q ref) pid := by
  obtain ⟨h1, h2⟩ := hok
  unfold ReplayOK2
  rw [movementsFor_log_self, specReplay_append,
    movementsFor_congr db0 db1 pid hmov, log_stock_movement_products]
  constructor
  · show (specReplay (movementsFor db0 pid)).stock + q =
      (db1.products pid).stock_quantity
    rw [h1, hst]
  · show (specReplay (movementsFor db0 pid)).reserved =
      (db1.products pid).reserved_quantity
    rw [h2, hrv]

theorem ReplayOK2_log_ne (db0 db1 : DB) (pid pid' : Nat) (hne : pid' ≠ pid)
    (t : MovementType) (q : Int) (ref : Option Nat)
    (hmov : db1.movements = db0.movements)
    (hp : db1.products pid = db0.products pid)
    (hok : ReplayOK2 db0 pid) :
    ReplayOK2 (InventoryService.log_stock_movement db1 pid' t q ref) pid := by
  obtain ⟨h1, h2⟩ := hok
  unfold ReplayOK2
  rw [movementsFor_log_ne db1 pid pid' hne,
    movementsFor_congr db0 db1 pid hmov, log_stock_movement_products, hp]
  exact ⟨h1, h2⟩

theorem reserve_stock_track (db : DB) (pid q : Nat) (b : Bool) (db' : DB)
    (h : Product.reserve_stock db pid q = some (b, db')) (p : Nat) :
    (db'.products p).track_inventory = (db.products p).track_inventory := by
  rcases reserve_stock_some _ _ _ _ _ h with ⟨-, -, rfl⟩ |
    ⟨-, -, -, -, rfl⟩ | ⟨-, -, -, rfl⟩
  · rfl
  · by_cases hp : p = pid
    · subst hp; simp
    · simp [hp]
  · rfl

theorem allocate_stock_track (db : DB) (pid q : Nat) (b : Bool) (db' : DB)
    (h : Product.allocate_stock db pid q = some (b, db')) (p : Nat) :
    (db'.products p).track_inventory = (db.products p).track_inventory := by
  rcases allocate_stock_some _ _ _ _ _ h with ⟨-, -, rfl⟩ |
    ⟨-, -, -, -, rfl⟩ | ⟨-, -, -, rfl⟩
  · rfl
  · by_cases hp : p = pid
    · subst hp; simp
    · simp [hp]
  · rfl

theorem release_reservation_track (db : DB) (pid q : Nat) (db' : DB)
    (h : Product.release_reservation db pid q = some db') (p : Nat) :
    (db'.products p).track_inventory = (db.products p).track_inventory := by
  rcases release_reservation_some _ _ _ _ h with ⟨-, rfl⟩ | ⟨-, -, rfl⟩
  · rfl
  · by_cases hp : p = pid
    · subst hp; simp
    · simp [hp]

theorem release_track (db : DB) (rid : Nat) (db' : DB)
    (h : StockReservation.release db rid = some db') (p : Nat) :
    (db'.products p).track_inventory = (db.products p).track_inventory := by
  rcases release_cases _ _ _ h with ⟨rfl, -⟩ | ⟨r, dbp, -, -, hrel, rfl⟩
  · rfl
  · rw [updateReservation_products]
    exact release_reservation_track _ _ _ _ hrel p

theorem replay_adjust_op (db : DB) (pid : Nat) (newq : Int) (p0 : Nat)
    (hok : ReplayOK db p0) :
    ReplayOK (InventoryService.adjust_stock db pid newq).2 p0 := by
  unfold InventoryService.adjust_stock
  dsimp only
  cases hset : trySetCounters db pid newq (db.products pid).reserved_quantity
      (db.products pid).allocated_quantity with
  | none => exact hok
  | some db1 =>
    dsimp only
    obtain ⟨-, -, -, rfl⟩ := trySetCounters_some _ _ _ _ _ _ hset
    by_cases hp : pid = p0
    · subst hp
      refine ReplayOK_log db _ pid _ _ _ rfl hok ?_
      simp only [putProduct_products, eq_self_iff_true, if_true]
      unfold specReplayStep countersOf
      dsimp only
      simp only [Counters.mk.injEq]
      refine ⟨by omega, trivial, trivial⟩
    · refine ReplayOK_log_ne db _ p0 pid hp _ _ _ rfl ?_ hok
      have hne0 : ¬(p0 = pid) := fun hEq => hp hEq.symm
      simp [hne0]

theorem reserve_stock_succeeds (db : DB) (pid q : Nat)
    (htrk : (db.products pid).track_inventory = true)
    (hav : (q : Int) ≤ (db.products pid).available_quantity)
    (hwf : 0 ≤ (db.products pid).stock_quantity ∧
      0 ≤ (db.products pid).reserved_quantity ∧
      0 ≤ (db.products pid).allocated_quantity) :
    Product.reserve_stock db pid q =
      some (true, (addReservation (putProduct db pid
        { db.products pid with reserved_quantity :=
            (db.products pid).reserved_quantity + q }) pid q none
        none).1) := by
  unfold Product.reserve_stock
  dsimp only
  rw [if_neg (by simp [htrk])]
  rw [if_pos hav, trySetCounters_eq, if_pos ⟨hwf.1, by omega, hwf.2.2⟩]

theorem replay_reserveLoop (oid : Nat) (t : Int) (p0 : Nat) :
    ∀ (items : List (Nat × Nat)) (db : DB) (rids : List Nat)
      (created : List (Nat × Nat)),
      (∀ it ∈ items, Product.can_reserve (db.products it.1) it.2 = true) →
      (∀ it ∈ items, 0 ≤ (db.products it.1).stock_quantity ∧
        0 ≤ (db.products it.1).reserved_quantity ∧
        0 ≤ (db.products it.1).allocated_quantity) →
      (items.map Prod.fst).Nodup →
      (db.products p0).track_inventory = true →
      ReplayOK db p0 →
      ∃ rids' db',
        InventoryService.reserveLoop oid t items db rids created =
          .ok rids' db' ∧ ReplayOK db' p0 := by
  intro items
  induction items with
  | nil =>
    intro db rids created _ _ _ _ hok
    exact ⟨rids.reverse, db, rfl, hok⟩
  | cons it rest ih =>
    intro db rids created hcan hwf hnd htrk hok
    have hne_rest : ∀ it' ∈ rest, it'.1 ≠ it.1 := by
      intro it' hmem hEq
      exact (List.nodup_cons.mp hnd).1
        (hEq ▸ List.mem_map_of_mem Prod.fst hmem)
    by_cases htr1 : (db.products it.1).track_inventory = true
    · have hav : (it.2 : Int) ≤ (db.products it.1).available_quantity := by
        have hc := hcan it (List.mem_cons_self it rest)
        unfold Product.can_reserve at hc
        rw [htr1] at hc
        simpa using hc
      have hres := reserve_stock_succeeds db it.1 it.2 htr1 hav
        (hwf it (List.mem_cons_self it rest))
      have hprod_ne : ∀ p, p ≠ it.1 →
          ((InventoryService.log_stock_movement
            (addReservation
              (addReservation (putProduct db it.1
                { db.products it.1 with reserved_quantity :=
                    (db.products it.1).reserved_quantity + it.2 })
                it.1 it.2 none none).1
              it.1 it.2 (some t) (some oid)).1 it.1
            MovementType.reserveM (it.2 : Int) (some oid)).products p) =
          db.products p := by
        intro p hp
        simp [hp]
      obtain ⟨rids', db', hloop, hok'⟩ := ih
        (InventoryService.log_stock_movement
          (addReservation
            (addReservation (putProduct db it.1
              { db.products it.1 with reserved_quantity :=
                  (db.products it.1).reserved_quantity + it.2 })
              it.1 it.2 none none).1
            it.1 it.2 (some t) (some oid)).1 it.1
          MovementType.reserveM (it.2 : Int) (some oid))
        ((addReservation
            (addReservation (putProduct db it.1
              { db.products it.1 with reserved_quantity :=
                  (db.products it.1).reserved_quantity + it.2 })
              it.1 it.2 none none).1
            it.1 it.2 (some t) (some oid)).2 :: rids)
        ((it.1, it.2) :: created)
        (by
          intro it' hmem
          rw [hprod_ne it'.1 (hne_rest it' hmem)]
          exact hcan it' (List.mem_cons_of_mem it hmem))
        (by
          intro it' hmem
          rw [hprod_ne it'.1 (hne_rest it' hmem)]
          exact hwf it' (List.mem_cons_of_mem it hmem))
        ((List.nodup_cons.mp hnd).2)
        (by
          by_cases hp0 : p0 = it.1
          · subst hp0
            simp only [log_stock_movement_products, addReservation_products,
              putProduct_products, eq_self_iff_true, if_true]
            exact htrk
          · rw [hprod_ne p0 hp0]
            exact htrk)
        (by
          by_cases hp0 : it.1 = p0
          · subst hp0
            refine ReplayOK_log db _ it.1 _ _ _ rfl hok ?_
            simp only [addReservation_products, putProduct_products,
              eq_self_iff_true, if_true]
            rfl
          · refine ReplayOK_log_ne db _ p0 it.1 hp0 _ _ _ rfl ?_ hok
            have hne0 : ¬(p0 = it.1) := fun hEq => hp0 hEq.symm
            simp [hne0])
      refine ⟨rids', db', ?_, hok'⟩
      rw [reserveLoop_cons, hres]
      exact hloop
    · have htrf : (db.products it.1).track_inventory = false := by
        revert htr1
        cases (db.products it.1).track_inventory <;> simp
      have hres := reserve_stock_untracked db it.1 it.2 htrf
      have hne0 : it.1 ≠ p0 := fun hEq => htr1 (by rw [hEq]; exact htrk)
      have hprod_eq : ∀ p,
          ((InventoryService.log_stock_movement
            (addReservation db it.1 it.2 (some t) (some oid)).1 it.1
            MovementType.reserveM (it.2 : Int) (some oid)).products p) =
          db.products p := fun p => rfl
      obtain ⟨rids', db', hloop, hok'⟩ := ih
        (InventoryService.log_stock_movement
          (addReservation db it.1 it.2 (some t) (some oid)).1 it.1
          MovementType.reserveM (it.2 : Int) (some oid))
        ((addReservation db it.1 it.2 (some t) (some oid)).2 :: rids)
        ((it.1, it.2) :: created)
        (by
          intro it' hmem
          rw [hprod_eq it'.1]
          exact hcan it' (List.mem_cons_of_mem it hmem))
        (by
          intro it' hmem
          rw [hprod_eq it'.1]
          exact hwf it' (List.mem_cons_of_mem it hmem))
        ((List.nodup_cons.mp hnd).2)
        (by rw [hprod_eq p0]; exact htrk)
        (ReplayOK_log_ne db _ p0 it.1 hne0 _ _ _ rfl rfl hok)
      refine ⟨rids', db', ?_, hok'⟩
      rw [reserveLoop_cons, hres]
      exact hloop

theorem replay_reserve_op (db : DB) (items : List (Nat × Nat)) (oid : Nat)
    (ttl : Int) (p0 : Nat) (hwf : CountersWF db)
    (hnd : (items.map Prod.fst).Nodup)
    (htrk : (db.products p0).track_inventory = true)
    (hok : ReplayOK db p0) :
    ReplayOK (InventoryService.reserve_stock_for_order db items oid ttl).2
      p0 := by
  unfold InventoryService.reserve_stock_for_order
  dsimp only
  cases hfind : (sortByPid items).find?
      (fun a => !(Product.can_reserve (db.products a.1) a.2)) with
  | some a => exact hok
  | none =>
    have hcan : ∀ it ∈ sortByPid items,
        Product.can_reserve (db.products it.1) it.2 = true := by
      intro it hit
      have := List.find?_eq_none.mp hfind it hit
      simpa using this
    have hnd' : ((sortByPid items).map Prod.fst).Nodup :=
      ((sortByPid_perm items).map Prod.fst).nodup_iff.mpr hnd
    obtain ⟨rids', db', hloop, hok'⟩ :=
      replay_reserveLoop oid (db.now + ttl) p0 (sortByPid items) db [] []
        hcan (fun it _ => hwf it.1) hnd' htrk hok
    rw [hloop]
    exact hok'

theorem replay_confirmLoop (oid p0 : Nat) :
    ∀ (L : List Reservation) (db db' : DB),
      InventoryService.confirmLoop oid L db = some db' →
      (db.products p0).track_inventory = true →
      ReplayOK db p0 →
      ReplayOK db' p0 := by
  intro L
  induction L with
  | nil =>
    intro db db' h _ hok
    cases h
    exact hok
  | cons r rest ih =>
    intro db db' h htrk hok
    rw [confirmLoop_cons] at h
    cases halloc : Product.allocate_stock db r.product_id r.quantity with
    | none => rw [halloc] at h; cases h
    | some pr =>
      obtain ⟨b, db1⟩ := pr
      cases b
      · rw [halloc] at h; cases h
      · rw [halloc] at h
        dsimp only at h
        refine ih _ _ h ?_ ?_
        · rw [log_stock_movement_products, updateReservation_products,
            allocate_stock_track _ _ _ _ _ halloc p0]
          exact htrk
        · rcases allocate_stock_some _ _ _ _ _ halloc with
            ⟨hf, -, rfl⟩ | ⟨htr, -, -, -, rfl⟩ | ⟨-, -, hb, -⟩
          · have hne0 : r.product_id ≠ p0 := fun hEq => by
              rw [hEq, htrk] at hf
              cases hf
            exact ReplayOK_log_ne _ _ p0 r.product_id hne0 _ _ _ rfl rfl hok
          · by_cases hp0 : r.product_id = p0
            · subst hp0
              refine ReplayOK_log db _ r.product_id _ _ _ rfl hok ?_
              simp only [updateReservation_products, putProduct_products,
                eq_self_iff_true, if_true]
              rfl
            · refine ReplayOK_log_ne db _ p0 r.product_id hp0 _ _ _ rfl ?_
                hok
              have hne0 : ¬(p0 = r.product_id) := fun hEq => hp0 hEq.symm
              simp [hne0]
          · cases hb

theorem replay_confirm_op (db : DB) (oid p0 : Nat)
    (htrk : (db.products p0).track_inventory = true)
    (hok : ReplayOK db p0) :
    ReplayOK (InventoryService.confirm_order_reservations db oid).2 p0 := by
  unfold InventoryService.confirm_order_reservations
  cases hloop : InventoryService.confirmLoop oid
      (InventoryService.activeOrderReservations db oid) db with
  | some db1 => exact replay_confirmLoop oid p0 _ db db1 hloop htrk hok
  | none => exact hok

theorem find?_rid_of_nodup (l : List Reservation) (r : Reservation)
    (hnd : (l.map Reservation.rid).Nodup) (hr : r ∈ l) :
    l.find? (fun s => s.rid = r.rid) = some r := by
  induction l with
  | nil => cases hr
  | cons h t ih =>
    by_cases hph : h.rid = r.rid
    · have heq : h = r := by
        rcases List.mem_cons.mp hr with rfl | hrt
        · rfl
        · exact List.inj_on_of_nodup_map hnd (List.mem_cons_self h t)
            (List.mem_cons_of_mem h hrt) hph
      rw [List.find?_cons_of_pos _ (by simp [hph]), heq]
    · rcases List.mem_cons.mp hr with rfl | hrt
      · exact absurd rfl hph
      · rw [List.find?_cons_of_neg _ (by simp [hph])]
        exact ih (by
          rw [List.map_cons, List.nodup_cons] at hnd
          exact hnd.2) hrt

theorem replay_release_log (db db1 : DB) (r : Reservation) (p0 : Nat)
    (ref : Option Nat)
    (hnd : (db.reservations.map Reservation.rid).Nodup)
    (hmem : r ∈ db.reservations) (hact : r.is_active = true)
    (htrk : (db.products p0).track_inventory = true)
    (hrel : StockReservation.release db r.rid = some db1)
    (hok : ReplayOK db p0) :
    ReplayOK (InventoryService.log_stock_movement db1 r.product_id
      MovementType.releaseM (r.quantity : Int) ref) p0 := by
  have hfind := find?_rid_of_nodup db.reservations r hnd hmem
  rcases release_cases _ _ _ hrel with ⟨rfl, hside⟩ |
    ⟨r0, dbp, hfind0, hact0, hrel0, rfl⟩
  · exfalso
    rcases hside with hnone | ⟨r1, hfind1, hina⟩
    · rw [hfind] at hnone; cases hnone
    · rw [hfind] at hfind1
      cases hfind1
      rw [hact] at hina
      cases hina
  · rw [hfind] at hfind0
    cases hfind0
    rcases release_reservation_some _ _ _ _ hrel0 with ⟨hf, rfl⟩ |
      ⟨htr, -, rfl⟩
    · have hne0 : r.product_id ≠ p0 := fun hEq => by
        rw [hEq, htrk] at hf
        cases hf
      exact ReplayOK_log_ne _ _ p0 r.product_id hne0 _ _ _ rfl rfl hok
    · by_cases hp0 : r.product_id = p0
      · subst hp0
        refine ReplayOK_log db _ r.product_id _ _ _ rfl hok ?_
        simp only [updateReservation_products, putProduct_products,
          eq_self_iff_true, if_true]
        rfl
      · refine ReplayOK_log_ne db _ p0 r.product_id hp0 _ _ _ rfl ?_ hok
        have hne0 : ¬(p0 = r.product_id) := fun hEq => hp0 hEq.symm
        simp [hne0]

theorem replay_cancelLoop (oid p0 : Nat) :
    ∀ (L : List Reservation) (db db' : DB),
      (db.reservations.map Reservation.rid).Nodup →
      (L.map Reservation.rid).Nodup →
      (∀ r ∈ L, r ∈ db.reservations ∧ r.is_active = true) →
      (db.products p0).track_inventory = true →
      ReplayOK db p0 →
      InventoryService.cancelLoop oid L db = some db' →
      ReplayOK db' p0 := by
  intro L
  induction L with
  | nil =>
    intro db db' _ _ _ _ hok h
    cases h
    exact hok
  | cons r rest ih =>
    intro db db' hnd hLnd hmem htrk hok h
    rw [cancelLoop_cons] at h
    cases hrel : StockReservation.release db r.rid with
    | none => rw [hrel] at h; cases h
    | some db1 =>
      rw [hrel] at h
      dsimp only at h
      refine ih _ _ ?_ ?_ ?_ ?_ ?_ h
      · rw [log_stock_movement_reservations, release_rids _ _ _ hrel]
        exact hnd
      · rw [List.map_cons, List.nodup_cons] at hLnd
        exact hLnd.2
      · intro r' hmem'
        obtain ⟨hmem_r', hact_r'⟩ := hmem r' (List.mem_cons_of_mem r hmem')
        have hne : r'.rid ≠ r.rid := by
          rw [List.map_cons, List.nodup_cons] at hLnd
          intro hEq
          exact hLnd.1 (hEq ▸ List.mem_map_of_mem Reservation.rid hmem')
        refine ⟨?_, hact_r'⟩
        rw [log_stock_movement_reservations]
        rcases release_cases _ _ _ hrel with ⟨rfl, -⟩ |
          ⟨r0, dbp, -, -, hrel0, rfl⟩
        · exact hmem_r'
        · have hdbp : dbp.reservations = db.reservations := by
            rcases release_reservation_some _ _ _ _ hrel0 with ⟨-, rfl⟩ |
              ⟨-, -, rfl⟩ <;> rfl
          rw [updateReservation_reservations, hdbp]
          have hmm := List.mem_map_of_mem
            (fun s => if s.rid = r.rid then { s with is_active := false }
              else s) hmem_r'
          dsimp only at hmm
          rwa [if_neg hne] at hmm
      · rw [log_stock_movement_products, release_track _ _ _ hrel p0]
        exact htrk
      · exact replay_release_log db db1 r p0 (some oid) hnd
          (hmem r (List.mem_cons_self r rest)).1
          (hmem r (List.mem_cons_self r rest)).2 htrk hrel hok

theorem replay_sweepLoop (p0 : Nat) :
    ∀ (L : List Reservation) (count : Nat) (db : DB),
      (db.reservations.map Reservation.rid).Nodup →
      (L.map Reservation.rid).Nodup →
      (∀ r ∈ L, r ∈ db.reservations ∧ r.is_active = true) →
      (db.products p0).track_inventory = true →
      ReplayOK db p0 →
      ReplayOK (InventoryService.sweepLoop L (count, db)).2 p0 := by
  intro L
  induction L with
  | nil => intro count db _ _ _ _ hok; exact hok
  | cons r rest ih =>
    intro count db hnd hLnd hmem htrk hok
    rw [sweepLoop_cons]
    cases hrel : StockReservation.release db r.rid with
    | none =>
      refine ih _ _ hnd ?_ ?_ htrk hok
      · rw [List.map_cons, List.nodup_cons] at hLnd
        exact hLnd.2
      · intro r' hmem'
        exact hmem r' (List.mem_cons_of_mem r hmem')
    | some db1 =>
      dsimp only
      refine ih _ _ ?_ ?_ ?_ ?_ ?_
      · rw [log_stock_movement_reservations, release_rids _ _ _ hrel]
        exact hnd
      · rw [List.map_cons, List.nodup_cons] at hLnd
        exact hLnd.2
      · intro r' hmem'
        obtain ⟨hmem_r', hact_r'⟩ := hmem r' (List.mem_cons_of_mem r hmem')
        have hne : r'.rid ≠ r.rid := by
          rw [List.map_cons, List.nodup_cons] at hLnd
          intro hEq
          exact hLnd.1 (hEq ▸ List.mem_map_of_mem Reservation.rid hmem')
        refine ⟨?_, hact_r'⟩
        rw [log_stock_movement_reservations]
        rcases release_cases _ _ _ hrel with ⟨rfl, -⟩ |
          ⟨r0, dbp, -, -, hrel0, rfl⟩
        · exact hmem_r'
        · have hdbp : dbp.reservations = db.reservations := by
            rcases release_reservation_some _ _ _ _ hrel0 with ⟨-, rfl⟩ |
              ⟨-, -, rfl⟩ <;> rfl
          rw [updateReservation_reservations, hdbp]
          have hmm := List.mem_map_of_mem
            (fun s => if s.rid = r.rid then { s with is_active := false }
              else s) hmem_r'
          dsimp only at hmm
          rwa [if_neg hne] at hmm
      · rw [log_stock_movement_products, release_track _ _ _ hrel p0]
        exact htrk
      · exact replay_release_log db db1 r p0 r.order_id hnd
          (hmem r (List.mem_cons_self r rest)).1
          (hmem r (List.mem_cons_self r rest)).2 htrk hrel hok

theorem replay_cancel_op (db : DB) (oid p0 : Nat) (hrids : RidsOK db)
    (htrk : (db.products p0).track_inventory = true)
    (hok : ReplayOK db p0) :
    ReplayOK (InventoryService.cancel_order_reservations db oid).2 p0 := by
  unfold InventoryService.cancel_order_reservations
  cases hloop : InventoryService.cancelLoop oid
      (InventoryService.activeOrderReservations db oid) db with
  | none => exact hok
  | some db1 =>
    refine replay_cancelLoop oid p0 _ db db1 hrids ?_ ?_ htrk hok hloop
    · exact ((List.filter_sublist _).map Reservation.rid).nodup hrids
    · intro r hr
      have hf := List.mem_filter.mp hr
      refine ⟨hf.1, ?_⟩
      have h2 := hf.2
      simp only [Bool.and_eq_true, decide_eq_true_eq] at h2
      exact h2.2

theorem replay_sweep_op (db : DB) (p0 : Nat) (hrids : RidsOK db)
    (htrk : (db.products p0).track_inventory = true)
    (hok : ReplayOK db p0) :
    ReplayOK (InventoryService.cleanup_expired_reservations db).2 p0 := by
  unfold InventoryService.cleanup_expired_reservations
  refine replay_sweepLoop p0 _ 0 db hrids ?_ ?_ htrk hok
  · exact ((List.filter_sublist _).map Reservation.rid).nodup hrids
  · intro r hr
    have hf := List.mem_filter.mp hr
    refine ⟨hf.1, ?_⟩
    have h2 := hf.2
    simp only [Bool.and_eq_true] at h2
    exact h2.1

theorem replay2_fulfillLoop (oid p0 : Nat) :
    ∀ (items : List OrderItem) (db db' : DB),
      InventoryService.fulfillLoop oid items db = some db' →
      ReplayOK2 db p0 → ReplayOK2 db' p0 := by
  intro items
  induction items with
  | nil =>
    intro db db' h hok
    cases h
    exact hok
  | cons it rest ih =>
    intro db db' h hok
    rw [fulfillLoop_cons] at h
    cases hdeal : Product.deallocate_stock db it.product_id it.quantity with
    | none => rw [hdeal] at h; cases h
    | some pr =>
      obtain ⟨b, db1⟩ := pr
      cases b
      · rw [hdeal] at h; cases h
      · rw [hdeal] at h
        dsimp only at h
        cases hset : trySetCounters db1 it.product_id
            ((db1.products it.product_id).stock_quantity - it.quantity)
            (db1.products it.product_id).reserved_quantity
            (db1.products it.product_id).allocated_quantity with
        | none => rw [hset] at h; cases h
        | some db2 =>
          rw [hset] at h
          dsimp only at h
          refine ih _ _ h ?_
          obtain ⟨-, -, -, rfl⟩ := trySetCounters_some _ _ _ _ _ _ hset
          have hp1 : ∀ p, (db1.products p).stock_quantity =
              (db.products p).stock_quantity ∧
              (db1.products p).reserved_quantity =
              (db.products p).reserved_quantity := by
            intro p
            rcases deallocate_stock_some _ _ _ _ _ hdeal with
              ⟨-, -, rfl⟩ | ⟨-, -, -, rfl⟩
            · exact ⟨rfl, rfl⟩
            · by_cases hp : p = it.product_id
              · subst hp; simp
              · simp [hp]
          by_cases hp0 : it.product_id = p0
          · subst hp0
            refine ReplayOK2_log_out db _ it.product_id
              (-(it.quantity : Int)) _ ?_ ?_ ?_ hok
            · rcases deallocate_stock_some _ _ _ _ _ hdeal with
                ⟨-, -, rfl⟩ | ⟨-, -, -, rfl⟩ <;> rfl
            · simp only [putProduct_products, eq_self_iff_true, if_true]
              have := (hp1 it.product_id).1
              omega
            · simp only [putProduct_products, eq_self_iff_true, if_true]
              exact (hp1 it.product_id).2
          · refine ReplayOK2_log_ne db _ p0 it.product_id hp0 _ _ _ ?_ ?_ hok
            · rcases deallocate_stock_some _ _ _ _ _ hdeal with
                ⟨-, -, rfl⟩ | ⟨-, -, -, rfl⟩ <;> rfl
            · have hne0 : ¬(p0 = it.product_id) := fun hEq => hp0 hEq.symm
              simp only [putProduct_products, if_neg hne0]
              rcases deallocate_stock_some _ _ _ _ _ hdeal with
                ⟨-, -, rfl⟩ | ⟨-, -, -, rfl⟩
              · rfl
              · simp [hne0]

theorem replay2_fulfill_op (db : DB) (oid p0 : Nat)
    (hok : ReplayOK2 db p0) :
    ReplayOK2 (InventoryService.fulfill_order db oid).2 p0 := by
  unfold InventoryService.fulfill_order
  cases hloop : InventoryService.fulfillLoop oid (db.orders oid).items db with
  | some db1 => exact replay2_fulfillLoop oid p0 _ db db1 hloop hok
  | none => exact hok

/-- C2 (amended): ledger replay is an invariant of the engine except for
fulfillment's allocated decrement.  For every tracked product,
`reserveForOrder` (distinct demanded product ids, non-negative stored
counters), `confirmReservations`, `cancelReservations` (distinct reservation
ids), `sweepExpired` (distinct reservation ids) and `adjustStock` each
preserve full replay consistency — every counter mutation they commit is
captured by exactly one logged movement; `fulfill` preserves replay
consistency of `stock_after` and `reserved_after` only: it logs a single
OUT movement for the stock decrement and leaves the paired
`allocated_quantity` decrement unlogged (see the counterexample). -/
theorem C2_amended :
    (∀ (db : DB) (items : List (Nat × Nat)) (oid : Nat) (ttl : Int)
      (p0 : Nat), CountersWF db → (items.map Prod.fst).Nodup →
      (db.products p0).track_inventory = true → ReplayOK db p0 →
      ReplayOK (InventoryService.reserve_stock_for_order db items oid
        ttl).2 p0) ∧
    (∀ (db : DB) (oid p0 : Nat),
      (db.products p0).track_inventory = true → ReplayOK db p0 →
      ReplayOK (InventoryService.confirm_order_reservations db oid).2 p0) ∧
    (∀ (db : DB) (oid p0 : Nat), RidsOK db →
      (db.products p0).track_inventory = true → ReplayOK db p0 →
      ReplayOK (InventoryService.cancel_order_reservations db oid).2 p0) ∧
    (∀ (db : DB) (p0 : Nat), RidsOK db →
      (db.products p0).track_inventory = true → ReplayOK db p0 →
      ReplayOK (InventoryService.cleanup_expired_reservations db).2 p0) ∧
    (∀ (db : DB) (pid : Nat) (newq : Int) (p0 : Nat), ReplayOK db p0 →
      ReplayOK (InventoryService.adjust_stock db pid newq).2 p0) ∧
    (∀ (db : DB) (oid p0 : Nat), ReplayOK2 db p0 →
      ReplayOK2 (InventoryService.fulfill_order db oid).2 p0) :=
  ⟨fun db items oid ttl p0 hwf hnd htrk hok =>
      replay_reserve_op db items oid ttl p0 hwf hnd htrk hok,
   fun db oid p0 htrk hok => replay_confirm_op db oid p0 htrk hok,
   fun db oid p0 hrids htrk hok => replay_cancel_op db oid p0 hrids htrk hok,
   fun db p0 hrids htrk hok => replay_sweep_op db p0 hrids htrk hok,
   fun db pid newq p0 hok => replay_adjust_op db pid newq p0 hok,
   fun db oid p0 hok => replay2_fulfill_op db oid p0 hok⟩

/-- C2 witness: an adjustment on the fresh `dbLedger0` keeps product 1
replay-consistent, and fulfilling order 7 on `dbLedger3` keeps the stock and
reserved components replay-consistent. -/
theorem C2_witness :
    ReplayOK (InventoryService.adjust_stock dbLedger0 1 5).2 1 ∧
    ReplayOK2 (InventoryService.fulfill_order dbLedger3 7).2 1 :=
  ⟨C2_amended.2.2.2.2.1 dbLedger0 1 5 1 (by decide),
   C2_amended.2.2.2.2.2 dbLedger3 7 1 (by decide)⟩
